import Mathlib

/-!
Verification development for the SignalMap Wayback pipeline
(`apps/api/connectors/wayback_instagram.py`,
`apps/api/src/signalmap/connectors/wayback_twitter.py`,
`apps/api/src/signalmap/connectors/wayback_youtube.py`, `apps/api/jobs.py`).

The Python code is shallowly embedded here:

* strings are `List Char` (`Str`); Python string slicing, `strip`,
  `lower`, `replace` and the specific regular expressions used by the
  connectors are implemented as executable scanners over char lists,
  transcribing each pattern's semantics (leftmost match, greedy or lazy
  subpattern, case-insensitivity) directly;
* Python `float` values are modelled exactly as decimal fractions
  `mant / 10 ^ exp` (`PyFloat`); the program only constructs floats from
  decimal literals, multiplies them by 1000 / 1000000 and truncates with
  `int(...)`, which this model reproduces with integer arithmetic
  (binary rounding of IEEE doubles is outside the model);
* network calls (`httpx` GETs, CDX queries) are oracles: each embedded
  network-using function takes the would-be responses as an explicit
  argument;
* the Postgres tables behind `jobs.py` are explicit records: a cache row
  is an optional record argument, the job row is a small state machine
  acted on by runner/cancel events.
-/

set_option maxRecDepth 10000

abbrev Str := List Char

/-- Python slice `l[i:j]` (indices clamped, `i ≤ j` or result empty). -/
def pySlice (l : Str) (i j : Nat) : Str := (l.take j).drop i

/-- ASCII decimal digit, the `\d` / `[0-9]` character class of the patterns
in scope (all scanned text is ASCII; unicode digits are outside the model). -/
def isPyDigit (c : Char) : Bool := '0' ≤ c && c ≤ '9'

/-- Python `\s` / `str.strip()` whitespace, ASCII subset. -/
def isPySpace (c : Char) : Bool :=
  c == ' ' || c == '\t' || c == '\n' || c == '\x0d' || c == '\x0b' || c == '\x0c'

/-- Python `str.lower()` on the ASCII range. -/
def pyLower (s : Str) : Str := s.map Char.toLower

/-- Case-insensitive character comparison (`re.IGNORECASE`). -/
def chEqCI (a b : Char) : Bool := a.toLower == b.toLower

/-- Does `pat` occur (case-insensitively) at the head of `s`? -/
def headIsCI : Str → Str → Bool
  | _, [] => true
  | [], _ :: _ => false
  | c :: cs, d :: ds => chEqCI c d && headIsCI cs ds

/-- Does `pat` occur (case-sensitively) at the head of `s`? -/
def headIs : Str → Str → Bool
  | _, [] => true
  | [], _ :: _ => false
  | c :: cs, d :: ds => (c == d) && headIs cs ds

/-- Python `pat in s` (case-sensitive substring test). -/
def containsSub (s pat : Str) : Bool :=
  (List.range (s.length + 1)).any (fun i => headIs (s.drop i) pat)

/-- Index of the first occurrence of `pat` in `s` (Python `s.find(pat)`). -/
def findSubIdx (s pat : Str) : Option Nat :=
  (List.range (s.length + 1)).findSome?
    (fun i => if headIs (s.drop i) pat then some i else none)

/-- Index of the last occurrence of `pat` in `s`. -/
def findSubIdxLast (s pat : Str) : Option Nat :=
  (List.range (s.length + 1)).reverse.findSome?
    (fun i => if headIs (s.drop i) pat then some i else none)

/-- Python `str.strip()` (ASCII whitespace). -/
def stripWs (s : Str) : Str :=
  ((s.dropWhile (isPySpace ·)).reverse.dropWhile (isPySpace ·)).reverse

/-- Python `str.strip(chars)` for a single character. -/
def stripChar (s : Str) (c : Char) : Str :=
  ((s.dropWhile (· == c)).reverse.dropWhile (· == c)).reverse

/-- Python `str.rstrip(chars)` for a single character. -/
def rstripChar (s : Str) (c : Char) : Str :=
  (s.reverse.dropWhile (· == c)).reverse

/-- `re.sub(r"\s+", " ", s)`: collapse each whitespace run to one space.
Structural recursion on fuel (each step consumes at least one character,
so `s.length` fuel is always enough). -/
def wsCollapseGo : Nat → Str → Str
  | 0, s => s
  | _, [] => []
  | fuel + 1, c :: rest =>
    if isPySpace c then ' ' :: wsCollapseGo fuel (rest.dropWhile (isPySpace ·))
    else c :: wsCollapseGo fuel rest

def wsCollapse (s : Str) : Str := wsCollapseGo s.length s

/-- Value of a digit run (`int` of a `\d+` group). -/
def digitsToNat (s : Str) : Nat := s.foldl (fun a c => 10 * a + (c.toNat - 48)) 0

/-!
## Python floats as exact decimals

`_parse_number` / `_parse_follower_number` / `_parse_subscriber_number`
call `float(...)` on strings drawn from `[\d.,]`-style regex groups, then
multiply by 1000 or 1000000 (`K`/`M` suffix) and truncate with `int(...)`.
A finite decimal literal is modelled exactly as `mant / 10 ^ exp`;
`int(x)` is truncation toward zero, which is `Int.tdiv`.
-/

structure PyFloat where
  mant : Int
  exp : Nat
  deriving DecidableEq, Repr

namespace PyFloat

/-- The rational value denoted by the float (specification-level view). -/
def toQ (a : PyFloat) : ℚ := (a.mant : ℚ) / ((10 : ℚ) ^ a.exp)

/-- Python `int(x)`: truncation toward zero. -/
def toInt (a : PyFloat) : Int := Int.tdiv a.mant ((10 : Int) ^ a.exp)

/-- Multiplication by a natural constant (`val * 1_000`, `val * 1_000_000`);
exact in the decimal model. -/
def mulNat (a : PyFloat) (k : Nat) : PyFloat := ⟨a.mant * k, a.exp⟩

/-- Python `a < b` on floats, in exact arithmetic. -/
def ltb (a b : PyFloat) : Bool := a.mant * 10 ^ b.exp < b.mant * 10 ^ a.exp

/-- Python `a == 0.0` on floats, in exact arithmetic. -/
def isZero (a : PyFloat) : Bool := a.mant == 0

/-- `round(x, 2)` with Python's round-half-to-even rule, done exactly:
round `mant * 100 / 10 ^ exp` half-to-even to an integer `r`, result `r/100`. -/
def round2 (a : PyFloat) : PyFloat :=
  let n : Int := a.mant * 100
  let d : Int := (10 : Int) ^ a.exp
  let q : Int := n / d
  let r : Int := n % d
  let roundUp : Bool := (2 * r > d) || (2 * r == d && q % 2 == 1)
  ⟨if roundUp then q + 1 else q, 2⟩

end PyFloat

/-- Literal float constants `0.0`, `0.2`, `0.35`, `0.5`, `0.55`, `0.75`
appearing in the connectors, as exact decimals. -/
def pf (mant : Int) (exp : Nat) : PyFloat := ⟨mant, exp⟩

/-!
## `float(s)` on a finite decimal literal

Grammar accepted (the subset of CPython's `float()` that the connectors
can produce): `[+-]? (digits [. digits*] | . digits+) ([eE] [+-]? digits+)?`
with no surrounding whitespace (callers strip first). `inf`/`nan`,
digit-group underscores and non-ASCII digits are outside the model.
-/

/-- Split a leading optional sign; `true` means negative. -/
def splitSign : Str → Bool × Str
  | '+' :: rest => (false, rest)
  | '-' :: rest => (true, rest)
  | s => (false, s)

/-- Parse `digits [. digits*] | . digits+` into `(mant, exp)`;
`none` when the shape (at least one digit, at most one dot) is violated
or trailing characters remain unconsumed by mantissa/fraction. -/
def parseMantissa (s : Str) : Option (Nat × Nat × Str) :=
  let intPart := s.takeWhile (isPyDigit ·)
  let rest := s.dropWhile (isPyDigit ·)
  match rest with
  | '.' :: rest2 =>
    let fracPart := rest2.takeWhile (isPyDigit ·)
    let rest3 := rest2.dropWhile (isPyDigit ·)
    if intPart.isEmpty && fracPart.isEmpty then none
    else some (digitsToNat (intPart ++ fracPart), fracPart.length, rest3)
  | _ =>
    if intPart.isEmpty then none
    else some (digitsToNat intPart, 0, rest)

/-- Parse an optional exponent suffix `([eE] [+-]? digits+)?`. -/
def parseExpSuffix (s : Str) : Option (Int × Str) :=
  match s with
  | 'e' :: rest | 'E' :: rest =>
    let (neg, rest2) := splitSign rest
    let ds := rest2.takeWhile (isPyDigit ·)
    let rest3 := rest2.dropWhile (isPyDigit ·)
    if ds.isEmpty then none
    else some (if neg then -(digitsToNat ds : Int) else (digitsToNat ds : Int), rest3)
  | _ => some (0, s)

/-- `float(s)` for a finite decimal literal; `none` models `ValueError`. -/
def pyFloatOfStr (s : Str) : Option PyFloat :=
  let (neg, s1) := splitSign s
  match parseMantissa s1 with
  | none => none
  | some (m, fracLen, s2) =>
    match parseExpSuffix s2 with
    | none => none
    | some (e, s3) =>
      if !s3.isEmpty then none
      else
        let signedM : Int := if neg then -(m : Int) else (m : Int)
        let e' : Int := e - fracLen
        some (if 0 ≤ e' then ⟨signedM * 10 ^ e'.toNat, 0⟩ else ⟨signedM, (-e').toNat⟩)

/-!
## Shared numeric parsing helpers (`wayback_instagram.py` 21-35,
`wayback_twitter.py` 227-240, `wayback_youtube.py` 230-243)
-/

/-- The string cleanup of `_parse_number`: strip `,`, the Arabic
thousands separator U+066C, map the Arabic decimal separator U+066B to
`.`, strip whitespace. -/
def parseNumberClean (s : Str) : Str :=
  stripWs (((s.filter (· != ',')).filter (· != '٬')).map
    (fun c => if c == '٫' then '.' else c))

/-- `_parse_number` (`wayback_instagram.py`): clean the string, then
`float(...)` with `0.0` on `ValueError`. -/
def parse_number (s : Str) : PyFloat :=
  match pyFloatOfStr (parseNumberClean s) with
  | some v => v
  | none => pf 0 0

/-- `_apply_multiplier` (`wayback_instagram.py`): a truthy suffix equal
(upper-cased) to `M`/`K` multiplies by 1e6/1e3; result is `int(...)`.
Float arithmetic is idealized as exact decimal arithmetic here, which
the downstream structural properties cannot observe; the
binary64-faithful version is `apply_multiplier_f64` below, and the two
differ on fractional inputs (exact 1.015 x 1000 = 1015, CPython 1014). -/
def apply_multiplier (val : PyFloat) (suffix : Option Str) : Int :=
  match suffix with
  | some sfx =>
    if !sfx.isEmpty && pyLower sfx == pyLower ['M'] then (val.mulNat 1000000).toInt
    else if !sfx.isEmpty && pyLower sfx == pyLower ['K'] then (val.mulNat 1000).toInt
    else val.toInt
  | none => val.toInt

/-- The string cleanup of `_parse_follower_number`: strip `,` and spaces,
then strip whitespace. -/
def followerNumberClean (raw : Str) : Str :=
  stripWs ((raw.filter (· != ',')).filter (· != ' '))

/-- `_parse_follower_number` (`wayback_twitter.py`; `_parse_subscriber_number`
in `wayback_youtube.py` is the same code): clean the string, `float(...)`
with `0` on `ValueError`, apply `K`/`M` suffix, truncate with `int(...)`.
Float arithmetic is idealized as exact decimal arithmetic here; the
binary64-faithful version is `parse_follower_number_f64` below. -/
def parse_follower_number (raw : Str) (suffix : Option Str) : Int :=
  match pyFloatOfStr (followerNumberClean raw) with
  | none => 0
  | some val =>
    match suffix with
    | some sfx =>
      let suf := stripWs (pyLower sfx)
      if suf == pyLower ['M'] then (val.mulNat 1000000).toInt
      else if suf == pyLower ['K'] then (val.mulNat 1000).toInt
      else val.toInt
    | none => val.toInt

/-!
## Faithful IEEE-754 binary64 semantics for the helpers above

The extractors' structural properties (value bounds, field linkage,
strategy ordering, evidence shapes) are insensitive to float rounding,
so the embedding above idealizes `float` as exact decimal arithmetic
(`PyFloat`). The exactness and totality of `_apply_multiplier` /
`_parse_follower_number` are not: CPython computes `int(val * 1_000)`
on binary64 doubles, where both `float(s)` and the product are rounded
to 53 significant bits, and `int()` of an infinite value raises outside
the helpers' `try` blocks. The definitions below give the same two
source functions their faithful binary64 semantics: `float(s)` is the
correctly rounded (nearest, ties to even) double of the exact decimal
literal, overflowing to infinity; multiplication re-rounds the exact
product; `int()` truncates toward zero and raises (`none`) on infinity.
-/

/-- Fuel-based floor of log2 (the fuel only bounds the recursion depth;
the argument halves each step, so `fuel = n` always suffices). -/
def log2Go : Nat → Nat → Nat
  | 0, _ => 0
  | fuel+1, n => if 2 ≤ n then log2Go fuel (n / 2) + 1 else 0

def natLog2 (n : Nat) : Nat := log2Go n n

/-- Whether `2 ^ j ≤ N / D` as exact rationals (for `N, D > 0`). -/
def npow2le (j : Int) (N D : Nat) : Bool :=
  if 0 ≤ j then decide (D * 2 ^ j.toNat ≤ N) else decide (D ≤ N * 2 ^ (-j).toNat)

/-- Floor of log2 of the positive rational `N / D`. -/
def qlog2 (N D : Nat) : Int :=
  let d : Int := (natLog2 N : Int) - (natLog2 D : Int)
  if npow2le d N D then d else d - 1

/-- Round the positive rational `N / D` to the binary64 grid of its
binade (nearest, ties to even): the result `(k, g)` denotes `k * 2 ^ g`
with `g = -1074` in the subnormal range; `none` when the rounded value
reaches `2 ^ 1024` (overflow to infinity). -/
def roundPos (N D : Nat) : Option (Nat × Int) :=
  let e := qlog2 N D
  let g : Int := if e < -1022 then -1074 else e - 52
  let nd : Nat × Nat :=
    if 0 ≤ g then (N, D * 2 ^ g.toNat) else (N * 2 ^ (-g).toNat, D)
  let q := nd.1 / nd.2
  let r := nd.1 % nd.2
  let k := if nd.2 < 2 * r || (2 * r == nd.2 && q % 2 == 1) then q + 1 else q
  let ovf : Bool :=
    if 0 ≤ g then decide (2 ^ 1024 ≤ k * 2 ^ g.toNat)
    else decide (2 ^ (1024 + (-g).toNat) ≤ k)
  if ovf then none else some (k, g)

/-- A CPython float the parsing pipeline can produce: a sign and either
a finite magnitude `k * 2 ^ g` or infinity (`none`). NaN is not
producible from a decimal literal and the two multiplications. -/
structure F64 where
  neg : Bool
  val : Option (Nat × Int)
deriving DecidableEq

def F64.zero : F64 := ⟨false, some (0, 0)⟩

/-- `float(s)` of a parsed finite decimal literal: the correctly
rounded binary64 value (CPython's string conversion is correctly
rounded), `inf` past the double range. -/
def f64OfPyFloat (v : PyFloat) : F64 :=
  if v.mant = 0 then F64.zero
  else ⟨decide (v.mant < 0), roundPos v.mant.natAbs (10 ^ v.exp)⟩

/-- `val * c` in binary64: the exact product re-rounded; infinity is
absorbing and overflow rounds to infinity. -/
def F64.mulNat (x : F64) (c : Nat) : F64 :=
  match x.val with
  | none => x
  | some (k, g) =>
    if k = 0 then x
    else ⟨x.neg,
      if 0 ≤ g then roundPos (k * c * 2 ^ g.toNat) 1
      else roundPos (k * c) (2 ^ (-g).toNat)⟩

/-- `int(val)`: truncation toward zero; `none` models the uncaught
`OverflowError` on an infinite value. -/
def F64.toIntO (x : F64) : Option Int :=
  match x.val with
  | none => none
  | some (k, g) =>
    let n : Nat := if 0 ≤ g then k * 2 ^ g.toNat else k / 2 ^ (-g).toNat
    some (if x.neg then -(n : Int) else (n : Int))

/-- `_parse_number` with faithful binary64 `float(...)` (`0.0` on
`ValueError`). -/
def parse_number_f64 (s : Str) : F64 :=
  match pyFloatOfStr (parseNumberClean s) with
  | some v => f64OfPyFloat v
  | none => F64.zero

/-- `_apply_multiplier` with faithful binary64 arithmetic:
`int(val * 1_000_000)` / `int(val * 1_000)` / `int(val)`; `none` models
the uncaught raise on an infinite `val`. -/
def apply_multiplier_f64 (val : F64) (suffix : Option Str) : Option Int :=
  match suffix with
  | some sfx =>
    if !sfx.isEmpty && pyLower sfx == pyLower ['M'] then (val.mulNat 1000000).toIntO
    else if !sfx.isEmpty && pyLower sfx == pyLower ['K'] then (val.mulNat 1000).toIntO
    else val.toIntO
  | none => val.toIntO

/-- `_parse_follower_number` with faithful binary64 arithmetic. -/
def parse_follower_number_f64 (raw : Str) (suffix : Option Str) : Option Int :=
  match pyFloatOfStr (followerNumberClean raw) with
  | none => some 0
  | some v0 =>
    let val := f64OfPyFloat v0
    match suffix with
    | some sfx =>
      let suf := stripWs (pyLower sfx)
      if suf == pyLower ['M'] then (val.mulNat 1000000).toIntO
      else if suf == pyLower ['K'] then (val.mulNat 1000).toIntO
      else val.toIntO
    | none => val.toIntO

/-- Strings over digits, commas, dots, spaces and the two signs: on
this alphabet the embedded literal grammar accepts exactly the strings
CPython `float` accepts (no underscores, exponents or `inf`/`nan`
spellings are expressible), so parse failure coincides with the
`ValueError` branch the helpers catch. -/
def numCharset (s : Str) : Bool :=
  s.all (fun c => isPyDigit c || c == ',' || c == '.' || c == ' ' || c == '+' || c == '-')

/-!
## Regex scanners

Each regular expression used by the connectors is transcribed as an
executable scanner over `Str`. Searching (`re.search`) tries start
positions left to right; greedy subpatterns take maximal runs (and
backtrack right-to-left where a literal must follow inside the same
`[^>]+` run); lazy subpatterns extend shortest-first. Group positions
are reported as absolute spans so evidence strings are built from
`pySlice` windows of the input.
-/

/-- The `["\']` character class. -/
def isQuote (c : Char) : Bool := c == '"' || c == '\''

/-- A `re` match for the number-plus-unit patterns: group-0 span,
group 1 (the number string) and group 2 (the `K`/`M` suffix). -/
structure NumHit where
  m0s : Nat
  m0e : Nat
  numStr : Str
  suffix : Option Char
  deriving DecidableEq, Repr

/-- Characters of the number group: `[\d.,]` (Instagram form) or the
tail class `[0-9,\.]` of the Twitter/YouTube form. -/
def isNumGroupChar (c : Char) : Bool := isPyDigit c || c == '.' || c == ','

/-- Match `NOUN` (case-insensitive), plus an optional trailing `s`
(greedy) when `optS` is set; returns consumed length. -/
def matchNounAt (noun : Str) (optS : Bool) (s : Str) : Option Nat :=
  if headIsCI s noun then
    let rest := s.drop noun.length
    if optS && (match rest with | c :: _ => chEqCI c 's' | [] => false)
    then some (noun.length + 1) else some noun.length
  else none

/-- Match `(NUM)\s*([MK])?\s*NOUN[s?]` at the head of `s`.
`firstDigitOnly` selects `([0-9][0-9,\.]*)` over `([\d.,]+)`.
The number run is maximal (no backtracking can help: a shorter run would
put a class character where the noun or suffix must start). -/
def matchNumUnitAt (firstDigitOnly : Bool) (noun : Str) (optS : Bool) (s : Str) :
    Option (Str × Option Char × Nat) :=
  let numStr := s.takeWhile (isNumGroupChar ·)
  let okFirst := match s with
    | c :: _ => !firstDigitOnly || isPyDigit c
    | [] => false
  if numStr.isEmpty || !okFirst then none
  else
    let rest1 := s.drop numStr.length
    let ws1 := (rest1.takeWhile (isPySpace ·)).length
    let rest2 := rest1.drop ws1
    let trySuffix : Option (Str × Option Char × Nat) :=
      match rest2 with
      | c :: rest3 =>
        if chEqCI c 'M' || chEqCI c 'K' then
          let ws2 := (rest3.takeWhile (isPySpace ·)).length
          (matchNounAt noun optS (rest3.drop ws2)).map fun nl =>
            (numStr, some c, numStr.length + ws1 + 1 + ws2 + nl)
        else none
      | [] => none
    match trySuffix with
    | some r => some r
    | none =>
      (matchNounAt noun optS rest2).map fun nl =>
        (numStr, none, numStr.length + ws1 + nl)

/-- Leftmost match of the number-plus-unit pattern in `s` with start
position `≥ fromPos` (`re.search` / `finditer` stepping). -/
def searchNumUnit (firstDigitOnly : Bool) (noun : Str) (optS : Bool)
    (s : Str) (fromPos : Nat) : Option NumHit :=
  (List.range (s.length + 1)).findSome? fun i =>
    if i < fromPos then none
    else (matchNumUnitAt firstDigitOnly noun optS (s.drop i)).map fun r =>
      ⟨i, i + r.2.2, r.1, r.2.1⟩

/-- Match `([\d.,]+)\s*</[^>]+>\s*NOUN[s?]` at the head of `s`
(the 2015-era "number inside a closing tag" Instagram form);
the pattern has a single group, so the suffix slot is empty. -/
def matchNumTagUnitAt (noun : Str) (optS : Bool) (s : Str) :
    Option (Str × Nat) :=
  let numStr := s.takeWhile (isNumGroupChar ·)
  if numStr.isEmpty then none
  else
    let rest1 := s.drop numStr.length
    let ws1 := (rest1.takeWhile (isPySpace ·)).length
    let rest2 := rest1.drop ws1
    if headIs rest2 ['<', '/'] then
      let inner := (rest2.drop 2).takeWhile (· != '>')
      if inner.isEmpty then none
      else
        match rest2.drop (2 + inner.length) with
        | '>' :: rest3 =>
          let ws2 := (rest3.takeWhile (isPySpace ·)).length
          (matchNounAt noun optS (rest3.drop ws2)).map fun nl =>
            (numStr, numStr.length + ws1 + 2 + inner.length + 1 + ws2 + nl)
        | _ => none
    else none

/-- Leftmost match of the tag-form pattern. -/
def searchNumTagUnit (noun : Str) (optS : Bool) (s : Str) : Option NumHit :=
  (List.range (s.length + 1)).findSome? fun i =>
    (matchNumTagUnitAt noun optS (s.drop i)).map fun r => ⟨i, i + r.2, r.1, none⟩

/-- A match of `["\']KEY["\'][\s:]*\{[^}]*?["\']count["\'][\s:]*(\d+)`. -/
structure BraceHit where
  m0s : Nat
  m0e : Nat
  digits : Str
  deriving DecidableEq, Repr

/-- Match `["\']count["\'][\s:]*(\d+)` at the head of `s`;
returns (consumed length, digit group). -/
def matchCountPartAt (s : Str) : Option (Nat × Str) :=
  match s with
  | q1 :: rest =>
    if isQuote q1 && headIsCI rest ("count".toList) then
      match rest.drop 5 with
      | q2 :: rest2 =>
        if isQuote q2 then
          let wl := (rest2.takeWhile (fun c => isPySpace c || c == ':')).length
          let ds := (rest2.drop wl).takeWhile (isPyDigit ·)
          if ds.isEmpty then none
          else some (1 + 5 + 1 + wl + ds.length, ds)
        else none
      | [] => none
    else none
  | [] => none

/-- Lazy `[^}]*?` gap scan: at each offset try the count part, else step
over one non-`}` character (shortest gap first, as `re` does). -/
def braceGapScan : Str → Nat → Option (Nat × Str)
  | s, acc =>
    match matchCountPartAt s with
    | some (l, ds) => some (acc + l, ds)
    | none =>
      match s with
      | [] => none
      | c :: rest => if c == '}' then none else braceGapScan rest (acc + 1)

/-- Match the full brace pattern for `KEY` at the head of `s`;
returns (full length up to the end of the digit group, digit group). -/
def matchBraceAt (key : Str) (s : Str) : Option (Nat × Str) :=
  match s with
  | q1 :: rest =>
    if isQuote q1 && headIsCI rest key then
      match rest.drop key.length with
      | q2 :: rest2 =>
        if isQuote q2 then
          let wl := (rest2.takeWhile (fun c => isPySpace c || c == ':')).length
          match rest2.drop wl with
          | '{' :: rest3 =>
            (braceGapScan rest3 0).map fun (gl, ds) =>
              (1 + key.length + 1 + wl + 1 + gl, ds)
          | _ => none
        else none
      | [] => none
    else none
  | [] => none

/-- Leftmost match of the brace pattern (`re.search`). -/
def searchCountBrace (key : Str) (s : Str) : Option BraceHit :=
  (List.range (s.length + 1)).findSome? fun i =>
    (matchBraceAt key (s.drop i)).map fun r => ⟨i, i + r.1, r.2⟩

/-- A meta-tag match: content-group span and full-match end (absolute). -/
structure MetaHit where
  gs : Nat
  ge : Nat
  fullEnd : Nat
  deriving DecidableEq, Repr

/-- Match `(?:N1|N2)=["\'](?:V1|V2)["\']` (alternatives in regex order,
case-insensitive, quotes need not pair up) at the head of `s`;
returns consumed length. -/
def matchKeyAt (names vals : List Str) (s : Str) : Option Nat :=
  names.findSome? fun nm =>
    if headIsCI s nm then
      match s.drop nm.length with
      | '=' :: q1 :: rest =>
        if isQuote q1 then
          vals.findSome? fun v =>
            if headIsCI rest v then
              match rest.drop v.length with
              | q2 :: _ => if isQuote q2 then some (nm.length + 2 + v.length + 1) else none
              | [] => none
            else none
        else none
      | _ => none
    else none

/-- Match `content=["\']([^"\']+)["\']` at the head of `s`; returns
(group offset, group length, consumed length). The group is the maximal
run of non-quote characters and must be followed by a quote. -/
def matchContentAt (s : Str) : Option (Nat × Nat × Nat) :=
  if headIsCI s ("content=".toList) then
    match s.drop 8 with
    | q1 :: rest =>
      if isQuote q1 then
        let grp := rest.takeWhile (fun c => !(isQuote c))
        if grp.isEmpty then none
        else
          match rest.drop grp.length with
          | q2 :: _ => if isQuote q2 then some (9, grp.length, 9 + grp.length + 1) else none
          | [] => none
      else none
    | [] => none
  else none

/-- Match `<meta[^>]+KEY[^>]+content=["\']([^"\']+)["\']` at absolute
position `i` of `html` (`KEY` as in `matchKeyAt`). Both `[^>]+` runs are
greedy: candidate split points are tried longest-first inside the maximal
`>`-free run, exactly as the backtracking engine does. -/
def matchMetaAt (names vals : List Str) (html : Str) (i : Nat) : Option MetaHit :=
  let s := html.drop i
  if headIsCI s ("<meta".toList) then
    let run1 := ((s.drop 5).takeWhile (· != '>')).length
    (List.range run1).reverse.findSome? fun a0 =>
      let a := a0 + 1
      (matchKeyAt names vals (s.drop (5 + a))).bind fun klen =>
        let b := 5 + a + klen
        let run2 := ((s.drop b).takeWhile (· != '>')).length
        (List.range run2).reverse.findSome? fun c0 =>
          let c := c0 + 1
          (matchContentAt (s.drop (b + c))).map fun (goff, glen, clen) =>
            ⟨i + b + c + goff, i + b + c + goff + glen, i + b + c + clen⟩
  else none

/-- Match the reversed Twitter/YouTube meta pattern
`<meta[^>]+content=["\']([^"\']+)["\'][^>]+KEY` at absolute position `i`. -/
def matchMetaRevAt (names vals : List Str) (html : Str) (i : Nat) : Option MetaHit :=
  let s := html.drop i
  if headIsCI s ("<meta".toList) then
    let run1 := ((s.drop 5).takeWhile (· != '>')).length
    (List.range run1).reverse.findSome? fun a0 =>
      let a := a0 + 1
      (matchContentAt (s.drop (5 + a))).bind fun (goff, glen, clen) =>
        let p := 5 + a + clen
        let run3 := ((s.drop p).takeWhile (· != '>')).length
        (List.range run3).reverse.findSome? fun c0 =>
          let c := c0 + 1
          (matchKeyAt names vals (html.drop (i + p + c))).map fun klen =>
            ⟨i + 5 + a + goff, i + 5 + a + goff + glen, i + p + c + klen⟩
  else none

/-- Leftmost meta match with start `≥ fromPos`. `rev` selects the
content-before-key variant. -/
def searchMeta (rev : Bool) (names vals : List Str) (html : Str) (fromPos : Nat) :
    Option MetaHit :=
  (List.range (html.length + 1)).findSome? fun i =>
    if i < fromPos then none
    else if rev then matchMetaRevAt names vals html i
    else matchMetaAt names vals html i

/-- Leftmost case-insensitive occurrence of `NOUN[s?]`; returns the
match span (the literal context patterns `followers`/`following`/`posts?`
of `_extract_evidence_candidates`). -/
def searchLit (noun : Str) (optS : Bool) (html : Str) : Option (Nat × Nat) :=
  (List.range (html.length + 1)).findSome? fun i =>
    (matchNounAt noun optS (html.drop i)).map fun l => (i, i + l)

/-!
## `html.unescape`, truncation, windows

`html.unescape` is modelled for the five predefined XML entities and for
decimal/hexadecimal character references; the full HTML5 named-entity
table does not occur in the texts this development evaluates.
-/

def hexDigitVal (c : Char) : Option Nat :=
  if isPyDigit c then some (c.toNat - 48)
  else if 'a' ≤ c.toLower && c.toLower ≤ 'f' then some (c.toLower.toNat - 87)
  else none

def hexToNat (s : Str) : Nat := s.foldl (fun a c => 16 * a + ((hexDigitVal c).getD 0)) 0

def unescapeGo : Nat → Str → Str
  | 0, s => s
  | _, [] => []
  | fuel + 1, '&' :: rest =>
    if headIs rest ("amp;".toList) then '&' :: unescapeGo fuel (rest.drop 4)
    else if headIs rest ("lt;".toList) then '<' :: unescapeGo fuel (rest.drop 3)
    else if headIs rest ("gt;".toList) then '>' :: unescapeGo fuel (rest.drop 3)
    else if headIs rest ("quot;".toList) then '"' :: unescapeGo fuel (rest.drop 5)
    else if headIs rest ("apos;".toList) then '\'' :: unescapeGo fuel (rest.drop 5)
    else
      match rest with
      | '#' :: 'x' :: rest2 =>
        let ds := rest2.takeWhile (fun c => (hexDigitVal c).isSome)
        (match rest2.drop ds.length with
         | ';' :: rest3 =>
           if ds.isEmpty then '&' :: unescapeGo fuel rest
           else Char.ofNat (hexToNat ds) :: unescapeGo fuel rest3
         | _ => '&' :: unescapeGo fuel rest)
      | '#' :: rest2 =>
        let ds := rest2.takeWhile (isPyDigit ·)
        (match rest2.drop ds.length with
         | ';' :: rest3 =>
           if ds.isEmpty then '&' :: unescapeGo fuel rest
           else Char.ofNat (digitsToNat ds) :: unescapeGo fuel rest3
         | _ => '&' :: unescapeGo fuel rest)
      | _ => '&' :: unescapeGo fuel rest
  | fuel + 1, c :: rest => c :: unescapeGo fuel rest

def pyUnescape (s : Str) : Str := unescapeGo s.length s

/-- `content[:140]` plus `"..."` when truncation happened
(`EVIDENCE_MAX_LEN = 140` in all three connectors). -/
def truncEll (content : Str) : Str :=
  if 140 < content.length then content.take 140 ++ "...".toList
  else content.take 140

/-!
## Extraction results (`ExtractionResult` of the spec)
-/

structure ExtractionResult where
  value : Option Int
  confidence : PyFloat
  evidence : Option Str
  deriving DecidableEq, Repr

def emptyExtraction : ExtractionResult := ⟨none, pf 0 0, none⟩

/-- Per-metric results of `extract_instagram_metrics`. -/
structure IGMetrics where
  followers : ExtractionResult
  following : ExtractionResult
  posts : ExtractionResult
  deriving DecidableEq, Repr

def emptyIGMetrics : IGMetrics := ⟨emptyExtraction, emptyExtraction, emptyExtraction⟩

/-!
## Instagram extractor (`wayback_instagram.py` 287-512)
-/

/-- The source tag of an evidence candidate
(`_extract_evidence_candidates` returns `(source, content)` pairs). -/
inductive CandSource
  | ogDescription
  | description
  | context
  deriving DecidableEq, Repr

/-- `_extract_evidence_candidates` (`wayback_instagram.py` 330-365):
A) first `og:description` meta content (unescaped), B) first
`description` meta content (unescaped), C) for each of the literal
patterns `followers` / `following` / `posts?` the first occurrence's
surrounding window `[start-60, end+80)`, newline/CR-replaced, stripped,
whitespace-collapsed and cut to 140 chars, kept when non-empty. -/
def extract_evidence_candidates (html : Str) : List (CandSource × Str) :=
  if html.isEmpty || 2000000 < html.length then []
  else
    let a := (searchMeta false ["property".toList] ["og:description".toList] html 0).toList.map
      fun h => (CandSource.ogDescription, pyUnescape (pySlice html h.gs h.ge))
    let b := (searchMeta false ["name".toList] ["description".toList] html 0).toList.map
      fun h => (CandSource.description, pyUnescape (pySlice html h.gs h.ge))
    let ctx := ([("followers".toList, false), ("following".toList, false),
        ("post".toList, true)]).filterMap
      fun nounOptS =>
        (searchLit nounOptS.1 nounOptS.2 html).bind fun span =>
          let st := span.1 - 60
          let en := min html.length (span.2 + 80)
          let snippet := (wsCollapse (stripWs ((pySlice html st en).map
            (fun c => if c == '\n' || c == '\x0d' then ' ' else c)))).take 140
          if snippet.isEmpty then none else some (CandSource.context, snippet)
    a ++ b ++ ctx

/-- Sanity filter for a followers value:
`if f_val is not None and (f_val <= 0 or f_val >= 1_000_000_000): f_val = None`. -/
def sanitizeFollowers (v : Option Int) : Option Int :=
  v.bind fun x => if x ≤ 0 || 1000000000 ≤ x then none else some x

/-- Sanity filter for following/posts:
`if v is not None and (v < 0 or v >= 100_000_000): v = None`. -/
def sanitizeSmallCount (v : Option Int) : Option Int :=
  v.bind fun x => if x < 0 || 100000000 ≤ x then none else some x

/-- `_apply_multiplier(_parse_number(m.group(1)), m.group(2))` for an
optional number-plus-unit match. -/
def parseNumHit (m : Option NumHit) : Option Int :=
  m.map fun h => apply_multiplier (parse_number h.numStr) (h.suffix.map fun c => [c])

structure ParsedVals where
  f : Option Int
  g : Option Int
  p : Option Int
  deriving DecidableEq, Repr

/-- Best candidate so far in the `for source, content in candidates`
loop: confidence, evidence (`content[:140]` + ellipsis) and parsed values. -/
structure BestCand where
  conf : PyFloat
  ev : Str
  vals : ParsedVals
  deriving DecidableEq, Repr

def countFound (v : ParsedVals) : Nat :=
  ([v.f, v.g, v.p].filter (·.isSome)).length

/-- The confidence assignment of the candidate loop
(`wayback_instagram.py` 412-420): 0.75 for either meta source, 0.55 for
a context window (each needing at least two values, which the loop has
already checked), 0.2 in the dead `else` arm. -/
def candConf (src : CandSource) (vals : ParsedVals) : PyFloat :=
  if src = CandSource.ogDescription && 2 ≤ countFound vals then pf 75 2
  else if src = CandSource.description && 2 ≤ countFound vals then pf 75 2
  else if src = CandSource.context && 2 ≤ countFound vals then pf 55 2
  else pf 2 1

/-- One iteration of the candidate loop (`wayback_instagram.py` 386-427):
skip contents without `follower`/`following`/`post`, parse the three
count patterns on the lowered content, sanity-filter, require at least
two values, assign a confidence by source, and keep the strictly better
candidate (`if conf > best_confidence`). -/
def candStep (best : Option BestCand) (cand : CandSource × Str) : Option BestCand :=
  let content := cand.2
  let contentLower := pyLower content
  if !containsSub contentLower ("follower".toList)
      && !containsSub contentLower ("following".toList)
      && !containsSub contentLower ("post".toList) then best
  else
    let fM := searchNumUnit false ("followers".toList) false contentLower 0
    let gM := searchNumUnit false ("following".toList) false contentLower 0
    let pM := searchNumUnit false ("post".toList) true contentLower 0
    let fVal := sanitizeFollowers (parseNumHit fM)
    let gVal := sanitizeSmallCount (parseNumHit gM)
    let pVal := sanitizeSmallCount (parseNumHit pM)
    let vals : ParsedVals := ⟨fVal, gVal, pVal⟩
    if countFound vals < 2 then best
    else
      let conf := candConf cand.1 vals
      let bestConf := (best.map (·.conf)).getD (pf 0 0)
      if bestConf.ltb conf then some ⟨conf, truncEll content, vals⟩ else best

/-- The whole candidate loop; `none` means `best_evidence` stayed `None`. -/
def candidateScan (html : Str) : Option BestCand :=
  (extract_evidence_candidates html).foldl candStep none

/-- Counts found by `_extract_from_shared_data`. -/
structure SharedCounts where
  followers : Nat
  following : Option Nat
  posts : Option Nat
  deriving DecidableEq, Repr

/-- `_extract_from_shared_data` (`wayback_instagram.py` 287-305):
guarded by case-sensitive `"followed_by" in html and "count" in html`;
the `followed_by` count must match and lie in `(0, 1e9)`, `follows` and
`media` counts are kept when in `[0, 1e8)`. -/
def extract_from_shared_data (html : Str) : Option SharedCounts :=
  if html.isEmpty || !containsSub html ("followed_by".toList)
      || !containsSub html ("count".toList) then none
  else
    match searchCountBrace ("followed_by".toList) html with
    | none => none
    | some fb =>
      let fg := searchCountBrace ("follows".toList) html
      let md := searchCountBrace ("media".toList) html
      let followers :=
        if 0 < digitsToNat fb.digits && digitsToNat fb.digits < 1000000000
        then some (digitsToNat fb.digits) else none
      let following := fg.bind fun m =>
        if digitsToNat m.digits < 100000000 then some (digitsToNat m.digits) else none
      let posts := md.bind fun m =>
        if digitsToNat m.digits < 100000000 then some (digitsToNat m.digits) else none
      match followers with
      | none => none
      | some f => some ⟨f, following, posts⟩

/-- `_extract_followers_from_edge_followed_by` (`wayback_instagram.py`
308-327): the `edge_followed_by` brace pattern, value in `(0, 1e9)`,
evidence `m.group(0)[:140]` with ellipsis when longer, confidence 0.5. -/
def extract_followers_from_edge_followed_by (html : Str) : Option ExtractionResult :=
  if html.isEmpty || !containsSub html ("edge_followed_by".toList) then none
  else
    match searchCountBrace ("edge_followed_by".toList) html with
    | none => none
    | some m =>
      let val := digitsToNat m.digits
      if 0 < val && val < 1000000000 then
        some ⟨some (val : Int), pf 5 1, some (truncEll (pySlice html m.m0s m.m0e))⟩
      else none

/-- The evidence string the shared-data path stores for followers
(`result["followers"]["evidence"] = "followed_by from _sharedData"`). -/
def sharedDataLabel : Str := "followed_by from _sharedData".toList

/-- Strategy D of `extract_instagram_metrics` (`wayback_instagram.py`
452-499): for each metric first try the tag form
`([\d.,]+)\s*</[^>]+>\s*NOUN`, else the plain form
`([\d.,]+)\s*([MK])?\s*NOUN`, parse and sanity-filter; when at least one
value survives, confidence is 0.5 (two or more values) or 0.35, and each
set metric's evidence is its own `group(0)[:140]` (falling back to the
followers/following `group(0)[:140]`). -/
def directMatch (noun : Str) (optS : Bool) (html : Str) : Option NumHit :=
  match searchNumTagUnit noun optS html with
  | some h => some h
  | none => searchNumUnit false noun optS html 0

/-- The assembly of strategy D (see `directMatch` above for the
per-metric match). -/
def directScan (html : Str) : IGMetrics :=
  let fm0 := directMatch ("followers".toList) false html
  let gm0 := directMatch ("following".toList) false html
  let pm0 := directMatch ("post".toList) true html
  let fD := sanitizeFollowers (parseNumHit fm0)
  let gD := sanitizeSmallCount (parseNumHit gm0)
  let pD := sanitizeSmallCount (parseNumHit pm0)
  let cnt := countFound ⟨fD, gD, pD⟩
  if 1 ≤ cnt then
    let conf := if 2 ≤ cnt then pf 5 1 else pf 35 2
    let g0 : NumHit → Str := fun h => (pySlice html h.m0s h.m0e).take 140
    let ev : Option Str :=
      match fm0 with
      | some h => some (g0 h)
      | none => gm0.map g0
    { followers :=
        if fD.isSome then
          ⟨fD, conf, match fm0 with | some h => some (g0 h) | none => ev⟩
        else emptyExtraction
      following :=
        if gD.isSome then
          ⟨gD, conf, match gm0 with | some h => some (g0 h) | none => ev⟩
        else emptyExtraction
      posts :=
        if pD.isSome then
          ⟨pD, conf, match pm0 with | some h => some (g0 h) | none => ev⟩
        else emptyExtraction }
  else emptyIGMetrics

/-- `extract_instagram_metrics` (`wayback_instagram.py` 368-512).
The candidate loop runs first; the `_sharedData`, `edge_followed_by` and
direct-scan strategies are consulted (in that order) only when
`best_evidence` stayed `None`; when a best candidate exists, all three
metrics get its parsed values (possibly `None`), its confidence and its
evidence string. -/
def extract_instagram_metrics (html : Str) : IGMetrics :=
  match candidateScan html with
  | some best =>
    { followers := ⟨best.vals.f, best.conf, some best.ev⟩
      following := ⟨best.vals.g, best.conf, some best.ev⟩
      posts := ⟨best.vals.p, best.conf, some best.ev⟩ }
  | none =>
    match extract_from_shared_data html with
    | some sd =>
      { followers := ⟨some (sd.followers : Int), pf 75 2, some sharedDataLabel⟩
        following :=
          match sd.following with
          | some v => ⟨some (v : Int), pf 75 2, none⟩
          | none => emptyExtraction
        posts :=
          match sd.posts with
          | some v => ⟨some (v : Int), pf 75 2, none⟩
          | none => emptyExtraction }
    | none =>
      match extract_followers_from_edge_followed_by html with
      | some er => { emptyIGMetrics with followers := er }
      | none => directScan html

/-!
## Twitter / YouTube extractors (`wayback_twitter.py` 243-299,
`wayback_youtube.py` 246-313)
-/

def metaKeyNames : List Str := ["name".toList, "property".toList]
def metaKeyVals : List Str := ["description".toList, "og:description".toList]

/-- The meta-strategy `finditer` loop shared by the Twitter and YouTube
extractors: walk the matches of one meta pattern (`rev` picks the
content-first variant), return the first whose content has a
number-plus-unit match with value in `(0, 1e10)`. Fuel bounds the number
of iterations; each step advances past the previous full match, so
`html.length + 1` is always enough. -/
def metaStratLoop (rev : Bool) (noun : Str) (optS : Bool) (html : Str) :
    Nat → Nat → Option (Int × Str)
  | 0, _ => none
  | fuel + 1, pos =>
    match searchMeta rev metaKeyNames metaKeyVals html pos with
    | none => none
    | some hit =>
      let content := pySlice html hit.gs hit.ge
      match searchNumUnit true noun optS content 0 with
      | some sub =>
        let val := parse_follower_number sub.numStr (sub.suffix.map fun c => [c])
        if 0 < val && val < 10000000000 then some (val, content)
        else metaStratLoop rev noun optS html fuel hit.fullEnd
      | none => metaStratLoop rev noun optS html fuel hit.fullEnd

/-- Both meta patterns in order (key-first, then content-first). -/
def metaStrategy (noun : Str) (optS : Bool) (html : Str) : Option (Int × Str) :=
  match metaStratLoop false noun optS html (html.length + 1) 0 with
  | some r => some r
  | none => metaStratLoop true noun optS html (html.length + 1) 0

/-- The visible-text `finditer` loop (strategy 2 of both extractors):
first number-plus-unit match in the document with value in `(0, 1e10)`;
its evidence is the window `[start-20, end+30)` with newlines replaced,
stripped, cut to 140 chars. -/
def textStratLoop (noun : Str) (optS : Bool) (html : Str) :
    Nat → Nat → Option (Int × Str)
  | 0, _ => none
  | fuel + 1, pos =>
    match searchNumUnit true noun optS html pos with
    | none => none
    | some m =>
      let val := parse_follower_number m.numStr (m.suffix.map fun c => [c])
      if 0 < val && val < 10000000000 then
        let st := m.m0s - 20
        let en := min html.length (m.m0e + 30)
        let snippet := (stripWs ((pySlice html st en).map
          (fun c => if c == '\n' then ' ' else c))).take 140
        some (val, snippet)
      else textStratLoop noun optS html fuel m.m0e

def textStrategy (noun : Str) (optS : Bool) (html : Str) : Option (Int × Str) :=
  textStratLoop noun optS html (html.length + 1) 0

/-- `extract_followers` (`wayback_twitter.py` 243-299): size guard, meta
strategy at confidence 0.75 (content truncated with ellipsis), visible
text at 0.5, else the null result. The noun is `[Ff]ollowers?`. -/
def extract_followers (html : Str) : ExtractionResult :=
  if html.isEmpty || 2000000 < html.length then ⟨none, pf 0 0, none⟩
  else
    match metaStrategy ("follower".toList) true html with
    | some r => ⟨some r.1, pf 75 2, some (truncEll r.2)⟩
    | none =>
      match textStrategy ("follower".toList) true html with
      | some r => ⟨some r.1, pf 5 1, some r.2⟩
      | none => ⟨none, pf 0 0, none⟩

/-- Match of the reversed YouTube pattern
`subscribers\s*[^0-9]{0,50}?([0-9][0-9,\.]*)\s*([KM])?` at the head of
`s`: greedy whitespace, then the shortest non-digit gap of at most 50
characters ending at a digit, the number group, trailing whitespace and
an optional suffix letter. Returns (number, suffix, full length). -/
def matchSubsRevAt (s : Str) : Option (Str × Option Char × Nat) :=
  if headIsCI s ("subscribers".toList) then
    let rest := s.drop 11
    let ws := (rest.takeWhile (isPySpace ·)).length
    let rest2 := rest.drop ws
    (List.range 51).findSome? fun j =>
      if (pySlice rest2 0 j).all (fun c => !(isPyDigit c)) then
        match rest2.drop j with
        | c :: _ =>
          if isPyDigit c then
            let numStr := (rest2.drop j).takeWhile (isNumGroupChar ·)
            let rest3 := rest2.drop (j + numStr.length)
            let ws2 := (rest3.takeWhile (isPySpace ·)).length
            let sfx : Option Char := match rest3.drop ws2 with
              | d :: _ => if chEqCI d 'K' || chEqCI d 'M' then some d else none
              | [] => none
            some (numStr, sfx,
              11 + ws + j + numStr.length + ws2 + (if sfx.isSome then 1 else 0))
          else none
        | [] => none
      else none
  else none

def searchSubsRev (html : Str) (fromPos : Nat) : Option NumHit :=
  (List.range (html.length + 1)).findSome? fun i =>
    if i < fromPos then none
    else (matchSubsRevAt (html.drop i)).map fun r => ⟨i, i + r.2.2, r.1, r.2.1⟩

/-- The reversed-pattern `finditer` loop of `extract_subscribers`;
evidence window is `[start-10, end+20)`. -/
def revStratLoop (html : Str) : Nat → Nat → Option (Int × Str)
  | 0, _ => none
  | fuel + 1, pos =>
    match searchSubsRev html pos with
    | none => none
    | some m =>
      let val := parse_follower_number m.numStr (m.suffix.map fun c => [c])
      if 0 < val && val < 10000000000 then
        let st := m.m0s - 10
        let en := min html.length (m.m0e + 20)
        let snippet := (stripWs ((pySlice html st en).map
          (fun c => if c == '\n' then ' ' else c))).take 140
        some (val, snippet)
      else revStratLoop html fuel m.m0e

/-- `extract_subscribers` (`wayback_youtube.py` 246-313): size guard,
meta strategy (noun `subscribers`) at 0.75, forward visible-text pattern
at 0.5, reversed pattern at 0.5, else the null result.
`_parse_subscriber_number` is textually `_parse_follower_number`. -/
def extract_subscribers (html : Str) : ExtractionResult :=
  if html.isEmpty || 2000000 < html.length then ⟨none, pf 0 0, none⟩
  else
    match metaStrategy ("subscribers".toList) false html with
    | some r => ⟨some r.1, pf 75 2, some (truncEll r.2)⟩
    | none =>
      match textStrategy ("subscribers".toList) false html with
      | some r => ⟨some r.1, pf 5 1, some r.2⟩
      | none =>
        match revStratLoop html (html.length + 1) 0 with
        | some r => ⟨some r.1, pf 5 1, some r.2⟩
        | none => ⟨none, pf 0 0, none⟩

section ExtractorChecks

/-- The 2015 list-style page of `test_extract_2015_style_html`. -/
def igHtml2015 : Str :=
  "<li>3 posts</li>\n<li>3,646 followers</li>\n<li>9 following</li>".toList

/-- The 2015 span format of `test_extract_2015_span_format`. -/
def igHtmlSpan : Str :=
  "<span class=\x22number-stat\x22 title=\x223,646\x22>3,646</span> followers".toList

/-- The 2016 `_sharedData` blob of `test_extract_2016_shared_data`. -/
def igHtmlShared : Str :=
  "\x22followed_by\x22:\x7b\x22count\x22:406462\x7d,\x22follows\x22:\x7b\x22count\x22:14\x7d,\x22media\x22:\x7b\x22count\x22:164\x7d".toList

end ExtractorChecks

/-!
## Snapshots, sorting, samplers
(`wayback_instagram.py` 223-257, `wayback_twitter.py` 200-209,
`wayback_youtube.py` 198-209)
-/

/-- A CDX snapshot row: `{"timestamp": ..., "original": ...}`. -/
structure Snap where
  timestamp : Str
  original : Str
  deriving DecidableEq, Repr

/-- Python string `≤` (lexicographic by code point). -/
def strLE : Str → Str → Bool
  | [], _ => true
  | _ :: _, [] => false
  | a :: as_, b :: bs =>
    if a.toNat < b.toNat then true
    else if b.toNat < a.toNat then false
    else strLE as_ bs

def snapRel (a b : Snap) : Prop := strLE a.timestamp b.timestamp = true

instance : DecidableRel snapRel := fun a b => by unfold snapRel; infer_instance

def strRel (a b : Str) : Prop := strLE a b = true

instance : DecidableRel strRel := fun a b => by unfold strRel; infer_instance

/-- `sorted(snapshots, key=lambda s: s["timestamp"])` (stable). -/
def sortSnaps (l : List Snap) : List Snap := List.insertionSort snapRel l

/-- `evenly_sample` (`wayback_twitter.py` 200-209; `wayback_youtube.py`
198-209 is the same code): all (sorted) when `N ≤ sample`, else the
stride-`max 1 (N / sample)` subsequence of the sorted list, re-sorted. -/
def evenly_sample (snapshots : List Snap) (sample : Nat) : List Snap :=
  if snapshots.isEmpty then []
  else
    let sorted_snaps := sortSnaps snapshots
    if sorted_snaps.length ≤ sample then sorted_snaps
    else
      let step := max 1 (sorted_snaps.length / sample)
      let indices := ((List.range sample).map (· * step)).take sample
      sortSnaps ((indices.filter (· < sorted_snaps.length)).filterMap
        (fun i => sorted_snaps[i]?))

/-- `ts[:4] if len(ts) >= 4 else "unknown"`. -/
def yearOf (s : Snap) : Str :=
  if 4 ≤ s.timestamp.length then s.timestamp.take 4 else "unknown".toList

/-- `by_year.setdefault(year, []).append(s)` on an insertion-ordered
association list (Python dict semantics). -/
def groupAdd (acc : List (Str × List Snap)) (year : Str) (s : Snap) :
    List (Str × List Snap) :=
  match acc with
  | [] => [(year, [s])]
  | (k, v) :: rest =>
    if k = year then (k, v ++ [s]) :: rest else (k, v) :: groupAdd rest year s

def groupByYear (l : List Snap) : List (Str × List Snap) :=
  l.foldl (fun acc s => groupAdd acc (yearOf s) s) []

/-- `by_year[year]` (total lookup; the keys iterated over are exactly the
dict's keys, so the default branch is never taken on those calls). -/
def lookupBucket (by_year : List (Str × List Snap)) (y : Str) : List Snap :=
  ((by_year.find? (fun kv => kv.1 == y)).map (·.2)).getD []

/-- The per-year selection of `evenly_sample_snapshots`: take all when
`n_take` (clamped to the bucket size) covers the bucket, else the
evenly-strided indices. -/
def pickYear (year_snaps : List Snap) (nt : Nat) : List Snap :=
  let n_take := min nt year_snaps.length
  if year_snaps.length ≤ n_take then year_snaps
  else
    let step := max 1 (year_snaps.length / n_take)
    let indices := ((List.range n_take).map (· * step)).take n_take
    (indices.filter (· < year_snaps.length)).filterMap (fun i => year_snaps[i]?)

/-- `evenly_sample_snapshots` (`wayback_instagram.py` 223-257): all
(sorted) when `N ≤ sample`; else group by capture year, give each year
`sample // num_years` slots (at least 1) plus one extra for the first
`remainder` years, pick an even stride inside each year, concatenate and
re-sort. `remainder` is a Python int and can be negative. -/
def evenly_sample_snapshots (snapshots : List Snap) (sample : Nat) : List Snap :=
  if snapshots.isEmpty then []
  else
    let sorted_snaps := sortSnaps snapshots
    if sorted_snaps.length ≤ sample then sorted_snaps
    else
      let by_year := groupByYear sorted_snaps
      let years := List.insertionSort strRel (by_year.map (·.1))
      let per_year := max 1 (sample / years.length)
      let remainder : Int := (sample : Int) - per_year * years.length
      let chunks := years.enum.map fun iy =>
        pickYear (lookupBucket by_year iy.2)
          (per_year + (if (iy.1 : Int) < remainder then 1 else 0))
      sortSnaps chunks.flatten

/-!
## CDX query clients (`wayback_instagram.py` 126-207,
`wayback_twitter.py` 61-137)

The CDX server is an oracle: the response to query number `i` of a
variant list is `responses i` (for the Instagram client, `none` models a
raised exception, which the `except Exception: continue` swallows; the
Twitter `_fetch_cdx` catches internally and yields `[]`).
-/

/-- `path.split(pat)[-1]`: the part after the last (case-sensitive)
occurrence, the whole string when `pat` does not occur. -/
def afterLastSub (s pat : Str) : Str :=
  match findSubIdxLast s pat with
  | some i => s.drop (i + pat.length)
  | none => s

/-- `re.sub(r":\d+", "", path)`: drop every colon-plus-digit-run. -/
def stripPortRunsGo : Nat → Str → Str
  | 0, s => s
  | _, [] => []
  | fuel + 1, ':' :: rest =>
    let ds := rest.takeWhile (isPyDigit ·)
    if ds.isEmpty then ':' :: stripPortRunsGo fuel rest
    else stripPortRunsGo fuel (rest.drop ds.length)
  | fuel + 1, c :: rest => c :: stripPortRunsGo fuel rest

def stripPorts (s : Str) : Str := stripPortRunsGo s.length s

/-- The common tail of both `_is_profile_url` variants: strip port runs,
strip `/`, split on `/`, keep non-empty parts not starting with `:`. -/
def pathParts (path : Str) : List Str :=
  ((stripChar (stripPorts path) '/').splitOn '/').filter
    (fun p => !p.isEmpty && !headIs p [':'])

/-- `_is_profile_url` (`wayback_instagram.py` 126-138): the URL path must
resolve to exactly `[username]` (case-insensitive). The domain is cut at
the last case-sensitive `instagram.com` when the lowered path contains it. -/
def is_profile_url_instagram (original username : Str) : Bool :=
  if original.isEmpty || username.isEmpty then false
  else
    let path := (original.takeWhile (· != '?')).takeWhile (· != '#')
    let path :=
      if containsSub (pyLower path) ("instagram.com".toList)
      then afterLastSub path ("instagram.com".toList) else path
    match pathParts path with
    | [p] => pyLower p == pyLower username
    | _ => false

/-- `_is_profile_url` (`wayback_twitter.py` 122-137): same check with the
`twitter.com` / `x.com` domains (first containing domain wins). -/
def is_profile_url_twitter (original handle : Str) : Bool :=
  if original.isEmpty || handle.isEmpty then false
  else
    let path := (original.takeWhile (· != '?')).takeWhile (· != '#')
    let path :=
      if containsSub (pyLower path) ("twitter.com".toList)
      then afterLastSub path ("twitter.com".toList)
      else if containsSub (pyLower path) ("x.com".toList)
      then afterLastSub path ("x.com".toList)
      else path
    match pathParts path with
    | [p] => pyLower p == pyLower handle
    | _ => false

/-- `seen_ts` deduplication: append rows whose timestamp was not seen,
remembering the timestamps (`all_snapshots` / `seen_ts` of both clients). -/
def addUnseen (st : List Snap × List Str) (snaps : List Snap) : List Snap × List Str :=
  snaps.foldl
    (fun st s =>
      if st.2.contains s.timestamp then st
      else (st.1 ++ [s], st.2 ++ [s.timestamp]))
    st

/-- The dedup-state invariant of both `list_snapshots` clients: the
accumulated rows' timestamps are exactly the `seen_ts` list, and carry
no duplicates. -/
def SeenInv (st : List Snap × List Str) : Prop :=
  st.1.map (·.timestamp) = st.2 ∧ st.2.Nodup

/-- The primary variant loop of the Instagram `list_snapshots`
(`wayback_instagram.py` 166-184): per variant, an exception is skipped,
an empty reply is skipped, prefix variants are profile-filtered (keeping
the unfiltered rows when the filter empties the list), then rows are
deduplicated by timestamp. -/
def igPrimaryLoop (base : Str) (responses : Nat → Option (List Snap))
    (variants : List (Nat × Bool)) (st : List Snap × List Str) :
    List Snap × List Str :=
  variants.foldl
    (fun st iv =>
      match responses iv.1 with
      | none => st
      | some snaps =>
        if snaps.isEmpty then st
        else
          let snaps :=
            if iv.2 then
              let filtered := snaps.filter (fun s => is_profile_url_instagram s.original base)
              if filtered.isEmpty then snaps else filtered
            else snaps
          addUnseen st snaps)
    st

/-- The fallback loop (`wayback_instagram.py` 187-205): skip variants
whose URL equals the input (up to a trailing slash), stop at the first
non-empty reply after merging it. -/
def igFallbackLoop (url : Str) (responses : Nat → Option (List Snap)) :
    List (Nat × Str) → (List Snap × List Str) → List Snap × List Str
  | [], st => st
  | iu :: rest, st =>
    if iu.2 == url || rstripChar iu.2 '/' == rstripChar url '/' then
      igFallbackLoop url responses rest st
    else
      match responses iu.1 with
      | none => igFallbackLoop url responses rest st
      | some snaps =>
        if snaps.isEmpty then igFallbackLoop url responses rest st
        else addUnseen st snaps

/-- `list_snapshots` (`wayback_instagram.py` 141-207). `primary` and
`fallback` are the CDX replies for the two variant lists, in order. -/
def list_snapshots_instagram (url : Str)
    (primary fallback : Nat → Option (List Snap)) : List Snap :=
  if !containsSub url ("instagram.com/".toList) then []
  else
    let base := rstripChar (stripWs ((afterLastSub url ("instagram.com/".toList)).takeWhile
      (· != '?'))) '/'
    if base.isEmpty then []
    else
      let url := stripWs url
      let st := igPrimaryLoop base primary [(0, true), (1, true), (2, false), (3, false)] ([], [])
      let fallbackUrls : List (Nat × Str) :=
        [(0, "https://instagram.com/".toList ++ base ++ ['/']),
         (1, "https://www.instagram.com/".toList ++ base),
         (2, "http://instagram.com/".toList ++ base),
         (3, "http://www.instagram.com/".toList ++ base ++ ['/'])]
      let st := if st.1.isEmpty then igFallbackLoop url fallback fallbackUrls st else st
      st.1

/-- `canonical_url.split(sep)[-1].split("?")[0].rstrip("/").split("/")[0]`
for the first of `twitter.com/`, `x.com/` contained (lowered) in the URL. -/
def twHandleOf (cu : Str) : Str :=
  if containsSub (pyLower cu) ("twitter.com/".toList) then
    (rstripChar ((afterLastSub cu ("twitter.com/".toList)).takeWhile (· != '?')) '/').takeWhile
      (· != '/')
  else if containsSub (pyLower cu) ("x.com/".toList) then
    (rstripChar ((afterLastSub cu ("x.com/".toList)).takeWhile (· != '?')) '/').takeWhile
      (· != '/')
  else []

/-- `list_snapshots` (`wayback_twitter.py` 61-119): eleven URL variants
(prefix variants profile-filtered, with no keep-on-empty fallback),
timestamp-deduplicated, sorted ascending by timestamp. `responses i` is
what `_fetch_cdx` returns for variant `i` (it catches its own errors and
returns `[]`). -/
def list_snapshots_twitter (canonical_url : Str) (responses : Nat → List Snap) :
    List Snap :=
  if canonical_url.isEmpty
      || (!containsSub (pyLower canonical_url) ("twitter.com".toList)
          && !containsSub (pyLower canonical_url) ("x.com".toList)) then []
  else
    let handle := twHandleOf canonical_url
    if handle.isEmpty then []
    else
      let variants : List (Nat × Bool) :=
        [(0, true), (1, true), (2, true), (3, false), (4, true), (5, true),
         (6, true), (7, true), (8, true), (9, false), (10, true)]
      let st := variants.foldl
        (fun st iv =>
          let snaps := responses iv.1
          let snaps :=
            if iv.2 then snaps.filter (fun s => is_profile_url_twitter s.original handle)
            else snaps
          addUnseen st snaps)
        (([], []) : List Snap × List Str)
      sortSnaps st.1

/-!
## Snapshot fetchers (`wayback_instagram.py` 260-284,
`wayback_twitter.py` 212-224)
-/

/-- One would-be HTTP GET outcome: a status-plus-body reply, or a raised
exception (timeout, connection error, ...). -/
inductive HttpOutcome
  | ok (status : Nat) (body : Str)
  | exc
  deriving DecidableEq, Repr

def HttpOutcome.is429 : HttpOutcome → Bool
  | .ok s _ => s == 429
  | .exc => false

def HttpOutcome.is2xx : HttpOutcome → Bool
  | .ok s _ => 200 ≤ s && s < 300
  | .exc => false

/-- `_build_archived_url` (`wayback_instagram.py` 68-70); the Twitter and
YouTube fetchers inline the same f-string. -/
def build_archived_url (timestamp original_url : Str) : Str :=
  "https://web.archive.org/web/".toList ++ timestamp ++ ['/'] ++ original_url

/-- Result of a fetch, instrumented with the number of GETs issued. -/
structure FetchOut where
  html : Option Str
  archived_url : Str
  gets : Nat
  deriving DecidableEq, Repr

/-- `fetch_snapshot_html` (`wayback_instagram.py` 260-284): two-attempt
loop; a 429 reply backs off and retries once; a raised exception or a
non-2xx reply (`raise_for_status` plus the `except` arms) yields
`(None, archived_url)`. The dead `except` arm for a 429
`HTTPStatusError` (unreachable: 429 is consumed before
`raise_for_status`) is not represented. -/
def fetch_snapshot_html_instagram (responses : Nat → HttpOutcome)
    (timestamp original_url : Str) : FetchOut :=
  let archived := build_archived_url timestamp original_url
  match responses 0 with
  | .exc => ⟨none, archived, 1⟩
  | .ok s b =>
    if s == 429 then
      match responses 1 with
      | .exc => ⟨none, archived, 2⟩
      | .ok s2 b2 =>
        if s2 == 429 then ⟨none, archived, 2⟩
        else if 200 ≤ s2 && s2 < 300 then ⟨some b2, archived, 2⟩
        else ⟨none, archived, 2⟩
    else if 200 ≤ s && s < 300 then ⟨some b, archived, 1⟩
    else ⟨none, archived, 1⟩

/-- `fetch_snapshot_html` (`wayback_twitter.py` 212-224; the YouTube
variant is the same code): one try block, an in-place second GET on 429,
then `raise_for_status`; any exception yields `(None, archived_url)`. -/
def fetch_snapshot_html_twitter (responses : Nat → HttpOutcome)
    (timestamp original_url : Str) : FetchOut :=
  let archived := build_archived_url timestamp original_url
  match responses 0 with
  | .exc => ⟨none, archived, 1⟩
  | .ok s b =>
    if s == 429 then
      match responses 1 with
      | .exc => ⟨none, archived, 2⟩
      | .ok s2 b2 =>
        if 200 ≤ s2 && s2 < 300 then ⟨some b2, archived, 2⟩
        else ⟨none, archived, 2⟩
    else if 200 ≤ s && s < 300 then ⟨some b, archived, 1⟩
    else ⟨none, archived, 1⟩

/-!
## Job orchestrator (`jobs.py`)

The per-snapshot loop body of `_run_instagram_job` / `_run_twitter_job` /
`_run_youtube_job` is embedded as a pure step: its inputs are the cache
row the SELECT returned (or `none`) and the HTML the fetch would return
(or `none` for a failed fetch); its outputs record whether a live fetch
and a cache upsert were performed, the `source` written to the job row,
and the metric/confidence/evidence columns.
-/

inductive RowSource
  | cache
  | wayback
  deriving DecidableEq, Repr

/-- A `wayback_snapshot_cache` row as selected by the Instagram job. -/
structure IGCacheRow where
  followers : Option Int
  following : Option Int
  posts : Option Int
  confidence : Option PyFloat
  evidence : Option Str
  deriving DecidableEq, Repr

structure IGStepOut where
  source : RowSource
  fetched : Bool
  upsert : Bool
  followers : Option Int
  following : Option Int
  posts : Option Int
  confidence : PyFloat
  evidence : Option Str
  deriving DecidableEq, Repr

/-- `float(row["confidence"] or 0.2)`: `None` and `0.0` are falsy. -/
def confOr02 (c : Option PyFloat) : PyFloat :=
  match c with
  | some cf => if cf.isZero then pf 2 1 else cf
  | none => pf 2 1

/-- Python `max` over a non-empty list (first of equal maxima wins). -/
def maxPF (c : PyFloat) (rest : List PyFloat) : PyFloat :=
  rest.foldl (fun a x => if a.ltb x then x else a) c

/-- `next((m["evidence"] for m in metrics.values() if m["evidence"]), None)`:
the first truthy (non-`None`, non-empty) evidence. -/
def firstTruthyEvidence : List (Option Str) → Option Str
  | [] => none
  | some s :: rest => if s.isEmpty then firstTruthyEvidence rest else some s
  | none :: rest => firstTruthyEvidence rest

/-- Per-snapshot step of `_run_instagram_job` (`jobs.py` 129-239):
a cache row with at least one of followers/following/posts present is
used directly (`source = cache`, no fetch, no upsert); otherwise a live
fetch runs, the extractor is applied when HTML came back, and the cache
is upserted. -/
def instagram_job_snapshot_step (cached : Option IGCacheRow) (html : Option Str) :
    IGStepOut :=
  match cached with
  | some c =>
    if c.followers.isSome || c.following.isSome || c.posts.isSome then
      ⟨.cache, false, false, c.followers, c.following, c.posts, confOr02 c.confidence,
        c.evidence⟩
    else instagram_job_fetch_branch html
  | none => instagram_job_fetch_branch html
where
  /-- The `else` arm (`source = "wayback"`): fetch, extract when HTML
  came back, always upsert. -/
  instagram_job_fetch_branch (html : Option Str) : IGStepOut :=
    match html with
    | some h =>
      let metrics := extract_instagram_metrics h
      let withValue := [metrics.followers, metrics.following, metrics.posts].filter
        (·.value.isSome)
      let confidence :=
        match withValue.map (·.confidence) with
        | [] => pf 2 1
        | c :: rest => (maxPF c rest).round2
      let evidence := firstTruthyEvidence
        [metrics.followers.evidence, metrics.following.evidence, metrics.posts.evidence]
      ⟨.wayback, true, true, metrics.followers.value, metrics.following.value,
        metrics.posts.value, confidence, evidence⟩
    | none => ⟨.wayback, true, true, none, none, none, pf 0 0, none⟩

/-- A cache row as selected by the Twitter job (`followers` only). -/
structure TwCacheRow where
  followers : Option Int
  confidence : Option PyFloat
  evidence : Option Str
  deriving DecidableEq, Repr

structure TwStepOut where
  source : RowSource
  fetched : Bool
  upsert : Bool
  followers : Option Int
  confidence : PyFloat
  evidence : Option Str
  deriving DecidableEq, Repr

/-- Per-snapshot step of `_run_twitter_job` (`jobs.py` 917-1005): cache
hit iff the row's `followers` is present; on fetch,
`confidence = extracted["confidence"] or 0.2` (truthiness again). -/
def twitter_job_snapshot_step (cached : Option TwCacheRow) (html : Option Str) :
    TwStepOut :=
  match cached with
  | some c =>
    if c.followers.isSome then
      ⟨.cache, false, false, c.followers, confOr02 c.confidence, c.evidence⟩
    else twitter_job_fetch_branch html
  | none => twitter_job_fetch_branch html
where
  twitter_job_fetch_branch (html : Option Str) : TwStepOut :=
    match html with
    | some h =>
      let extracted := extract_followers h
      ⟨.wayback, true, true, extracted.value,
        (if extracted.confidence.isZero then pf 2 1 else extracted.confidence),
        extracted.evidence⟩
    | none => ⟨.wayback, true, true, none, pf 0 0, none⟩

/-- Per-snapshot step of `_run_youtube_job` (`jobs.py` 1329-1434): cache
hit iff the row's `subscribers` is present. -/
def youtube_job_snapshot_step (cached : Option TwCacheRow) (html : Option Str) :
    TwStepOut :=
  match cached with
  | some c =>
    if c.followers.isSome then
      ⟨.cache, false, false, c.followers, confOr02 c.confidence, c.evidence⟩
    else youtube_job_fetch_branch html
  | none => youtube_job_fetch_branch html
where
  youtube_job_fetch_branch (html : Option Str) : TwStepOut :=
    match html with
    | some h =>
      let extracted := extract_subscribers h
      ⟨.wayback, true, true, extracted.value,
        (if extracted.confidence.isZero then pf 2 1 else extracted.confidence),
        extracted.evidence⟩
    | none => ⟨.wayback, true, true, none, pf 0 0, none⟩

/-!
## Job status state machine (`jobs.py` 66-278, 682-689)

Events are the job runner's writes and the external `cancel_job` UPDATE,
at the granularity of the SQL statements in `_run_instagram_job`:
* `runnerClaim`: `UPDATE ... SET status = 'running'` — not guarded by
  the current status;
* `runnerCheck`: the per-snapshot `SELECT status`, stopping on
  `canceled`;
* `runnerBody`: the snapshot work plus `processed = processed + 1`;
* `runnerFinish`: the final `UPDATE ... SET status = 'completed'` — not
  guarded by the current status;
* `runnerCrash`: the `except` arm, `UPDATE ... SET status = 'failed'`;
* `cancel`: `UPDATE ... SET status = 'canceled' WHERE status IN
  ('queued', 'running')`.
-/

inductive JobStatus
  | queued
  | running
  | completed
  | failed
  | canceled
  deriving DecidableEq, Repr

/-- Where the runner's control flow stands: not yet started, between
loop iterations, inside a loop body (status already checked), stopped. -/
inductive JobPhase
  | notStarted
  | looping
  | inBody
  | stopped
  deriving DecidableEq, Repr

structure JobState where
  status : JobStatus
  phase : JobPhase
  idx : Nat
  processed : Nat
  deriving DecidableEq, Repr

/-- A freshly created job row (`create_instagram_job` writes `queued`). -/
def initJobState : JobState := ⟨.queued, .notStarted, 0, 0⟩

inductive JobEvent
  | runnerClaim
  | runnerCheck
  | runnerBody
  | runnerFinish
  | runnerCrash
  | cancel
  deriving DecidableEq, Repr

/-- `cancel_job` (`jobs.py` 682-689) on an optionally-existing job row:
the UPDATE matches exactly when the row exists with status `queued` or
`running`; the returned Bool is `cur.rowcount > 0`. -/
def cancel_job (job : Option JobState) : Option JobState × Bool :=
  match job with
  | none => (none, false)
  | some s =>
    if s.status = .queued ∨ s.status = .running then
      (some { s with status := .canceled }, true)
    else (some s, false)

/-- One event against a job with `total` sampled snapshots. The Bool is
`cancel_job`'s return value (`false` for runner events). -/
def job_step (total : Nat) (s : JobState) : JobEvent → JobState × Bool
  | .runnerClaim =>
    if s.phase = .notStarted then
      ({ s with status := .running, phase := .looping }, false)
    else (s, false)
  | .runnerCheck =>
    if s.phase = .looping ∧ s.idx < total then
      (if s.status = .canceled then { s with phase := .stopped }
       else { s with phase := .inBody }, false)
    else (s, false)
  | .runnerBody =>
    if s.phase = .inBody then
      ({ s with phase := .looping, idx := s.idx + 1, processed := s.processed + 1 },
        false)
    else (s, false)
  | .runnerFinish =>
    if s.phase = .looping ∧ s.idx = total then
      ({ s with status := .completed, phase := .stopped }, false)
    else (s, false)
  | .runnerCrash =>
    if s.phase ≠ .stopped then ({ s with status := .failed, phase := .stopped }, false)
    else (s, false)
  | .cancel =>
    match cancel_job (some s) with
    | (some s', b) => (s', b)
    | (none, b) => (s, b)

/-- Cancel-free reachability from a fresh job row. -/
inductive ReachableCF (total : Nat) : JobState → Prop
  | init : ReachableCF total initJobState
  | step {s : JobState} {e : JobEvent} (hs : ReachableCF total s) (he : e ≠ .cancel) :
      ReachableCF total (job_step total s e).1

/-!
## Concrete inputs for witnesses and counterexamples
-/

/-- A page where both the near-text context strategy and the
`_sharedData` strategy match, with different counts. -/
def igHtmlMixed : Str :=
  "5 followers 6 following \x22followed_by\x22:\x7b\x22count\x22:999\x7d,\x22follows\x22:\x7b\x22count\x22:8\x7d".toList

/-- Three snapshots in three distinct years. -/
def snapsThreeYears : List Snap :=
  [⟨"20200101000000".toList, []⟩, ⟨"20210101000000".toList, []⟩,
   ⟨"20220101000000".toList, []⟩]

/-- CDX oracle for the Instagram client: the first (prefix) variant
returns a 2021 capture, the second a 2019 capture. -/
def cdxPrimaryEx : Nat → Option (List Snap)
  | 0 => some [⟨"20210101000000".toList, "instagram.com:80/user1".toList⟩]
  | 1 => some [⟨"20190101000000".toList, "instagram.com/user1/".toList⟩]
  | _ => some []

def cdxNoneEx : Nat → Option (List Snap) := fun _ => some []

def igProfileUrlEx : Str := "https://www.instagram.com/user1/".toList

/-- A Twitter CDX oracle: two variants answer, out of order. -/
def cdxTwEx : Nat → List Snap
  | 0 => [⟨"20210101000000".toList, "twitter.com:80/jack".toList⟩]
  | 1 => [⟨"20190101000000".toList, "twitter.com/jack/".toList⟩]
  | _ => []

/-- HTTP oracle: first GET rate-limited, retry succeeds. -/
def http429Then200 : Nat → HttpOutcome
  | 0 => .ok 429 []
  | _ => .ok 200 ("<p>ok</p>".toList)

/-- HTTP oracle: plain 404. -/
def http404 : Nat → HttpOutcome := fun _ => .ok 404 []

/-- An Instagram cache row with every metric column NULL. -/
def igNullCacheRow : IGCacheRow := ⟨none, none, none, some (pf 2 1), none⟩

/-- An Instagram cache row with a followers value. -/
def igHitCacheRow : IGCacheRow := ⟨some 3646, none, some 3, some (pf 55 2), some ("ev".toList)⟩

/-- Twitter witness inputs. -/
def twHtmlMeta : Str :=
  "<meta name=\x22description\x22 content=\x221,234 Followers here\x22>".toList

def ytHtmlText : Str := "<p>850K subscribers</p>".toList

def twNullCacheRow : TwCacheRow := ⟨none, some (pf 2 1), none⟩

def twHitCacheRow : TwCacheRow := ⟨some 1234, some (pf 75 2), some ("ev".toList)⟩

/-- The status pairs a single runner step may produce in a cancel-free
execution: no change, the claim (`queued → running`), a crash before the
claim (`queued → failed`), or a loop outcome
(`running → completed | failed`). -/
def statusStepOK (a b : JobStatus) : Prop :=
  b = a ∨ (a = .queued ∧ b = .running) ∨ (a = .queued ∧ b = .failed)
    ∨ (a = .running ∧ (b = .completed ∨ b = .failed))

/-- The shapes an Instagram evidence string can take: the fixed
`_sharedData` label, or a literal window `w` of the HTML processed by
one of the four evidence builders (meta candidate: unescape then
truncate-with-ellipsis; context candidate: newline/CR replacement,
strip, whitespace collapse, cut to 140, then truncate-with-ellipsis;
edge blob: truncate-with-ellipsis; direct scan: plain `[:140]` cut). -/
def evidenceShapeIG (html e : Str) : Prop :=
  e = sharedDataLabel
  ∨ ∃ w, w <:+: html
      ∧ (e = truncEll (pyUnescape w)
        ∨ e = truncEll ((wsCollapse (stripWs (w.map
            (fun c => if c == '\n' || c == '\x0d' then ' ' else c)))).take 140)
        ∨ e = truncEll w
        ∨ e = w.take 140)

/-- The number of distinct capture years the stratified sampler builds
buckets for. -/
def sampleYears (snapshots : List Snap) : Nat :=
  (groupByYear (sortSnaps snapshots)).length

/-!
## Embedding sanity checks and basic lemmas

`decide` checks mirroring the repository test suite, and the two
elementary facts about `PyFloat.toQ` used throughout.
-/

theorem PyFloat.toQ_eq_zero_iff (a : PyFloat) : a.toQ = 0 ↔ a.mant = 0 := by
  unfold PyFloat.toQ
  rw [div_eq_zero_iff]
  constructor
  · rintro (h | h)
    · exact_mod_cast h
    · exfalso; revert h; positivity
  · intro h; left; exact_mod_cast h

theorem PyFloat.toQ_pos_of_mant_pos (a : PyFloat) (h : 0 < a.mant) : 0 < a.toQ := by
  unfold PyFloat.toQ
  have h1 : (0 : ℚ) < (a.mant : ℚ) := by exact_mod_cast h
  positivity

example : parse_number ("3,646".toList) = pf 3646 0 := by decide
example : parse_number ("1.2".toList) = pf 12 1 := by decide
example : parse_number [] = pf 0 0 := by decide
example : parse_number ("ab c".toList) = pf 0 0 := by decide
example : apply_multiplier (pf 12 1) (some ['M']) = 1200000 := by decide
example : apply_multiplier (pf 5 0) (some ['k']) = 5000 := by decide
example : parse_follower_number ("1,234".toList) none = 1234 := by decide
example : parse_follower_number ("850".toList) (some ['K']) = 850000 := by decide
example : parse_follower_number ("x".toList) none = 0 := by decide
example : pyUnescape ("a&amp;b&#65;".toList) = "a&bA".toList := by decide
example : searchLit ("post".toList) true ("my posts here".toList) = some (3, 8) := by decide
example : (searchNumUnit false ("followers".toList) false ("x 3,646 followers y".toList) 0).map
    (fun h => (h.m0s, h.m0e, h.numStr, h.suffix)) = some (2, 17, "3,646".toList, none) := by decide
example : (searchNumUnit true ("follower".toList) true (" 1.2M Followers ".toList) 0).map
    (fun h => (h.numStr, h.suffix)) = some ("1.2".toList, some 'M') := by decide
example : (searchCountBrace ("followed_by".toList)
    ("\x22followed_by\x22:\x7b\x22count\x22:406462\x7d".toList)).map (fun h => (h.m0s, h.m0e, h.digits))
    = some (0, 29, "406462".toList) := by decide
example : (extract_instagram_metrics igHtml2015).followers.value = some 3646 := by decide
example : (extract_instagram_metrics igHtml2015).following.value = some 9 := by decide
example : (extract_instagram_metrics igHtml2015).posts.value = some 3 := by decide
example : (extract_instagram_metrics igHtml2015).followers.confidence = pf 55 2 := by decide
example : (extract_instagram_metrics igHtmlSpan).followers.value = some 3646 := by decide
example : (extract_instagram_metrics igHtmlShared).followers.value = some 406462 := by decide
example : (extract_instagram_metrics igHtmlShared).following.value = some 14 := by decide
example : (extract_instagram_metrics igHtmlShared).posts.value = some 164 := by decide
example : (extract_instagram_metrics igHtmlShared).followers.confidence = pf 75 2 := by decide
example : extract_followers ("<meta name=\x22description\x22 content=\x221,234 Followers here\x22>".toList)
    = ⟨some 1234, pf 75 2, some "1,234 Followers here".toList⟩ := by decide
example : extract_subscribers ("<p>850K subscribers</p>".toList)
    = ⟨some 850000, pf 5 1, some "<p>850K subscribers</p>".toList⟩ := by decide
example :
    evenly_sample [⟨"20210101".toList, []⟩, ⟨"20190101".toList, []⟩] 5
      = [⟨"20190101".toList, []⟩, ⟨"20210101".toList, []⟩] := by decide
example :
    (evenly_sample (List.range 10 |>.map fun i => ⟨[Char.ofNat (65 + i)], []⟩) 3).length = 3 := by
  decide
example : is_profile_url_instagram ("http://instagram.com:80/golfarahani".toList)
    ("golfarahani".toList) = true := by decide
example : is_profile_url_instagram ("http://instagram.com:80/golfarahani/photos/".toList)
    ("golfarahani".toList) = false := by decide

/-!
## Claim theorems
-/

/-- **C9** (confirmed). For every `(timestamp, original_url)` and every
behavior of the archive server, both snapshot fetchers return (rather
than raise — the embedding is total and every branch below is covered):
the deterministically built archived URL; at most two GETs, with a
second GET exactly when the first reply is HTTP 429; `none` HTML when
the first reply is neither 2xx nor 429 (timeout, connection error,
non-2xx), and `none` HTML when the 429 retry does not come back 2xx. -/
theorem claim_C9_fetcher (responses : Nat → HttpOutcome) (timestamp original_url : Str) :
    ((fetch_snapshot_html_instagram responses timestamp original_url).archived_url
        = build_archived_url timestamp original_url
      ∧ (fetch_snapshot_html_instagram responses timestamp original_url).gets ≤ 2
      ∧ ((fetch_snapshot_html_instagram responses timestamp original_url).gets = 2
          ↔ (responses 0).is429 = true)
      ∧ ((responses 0).is429 = false → (responses 0).is2xx = false →
          (fetch_snapshot_html_instagram responses timestamp original_url).html = none)
      ∧ ((responses 0).is429 = true → (responses 1).is2xx = false →
          (fetch_snapshot_html_instagram responses timestamp original_url).html = none))
    ∧ ((fetch_snapshot_html_twitter responses timestamp original_url).archived_url
        = build_archived_url timestamp original_url
      ∧ (fetch_snapshot_html_twitter responses timestamp original_url).gets ≤ 2
      ∧ ((fetch_snapshot_html_twitter responses timestamp original_url).gets = 2
          ↔ (responses 0).is429 = true)
      ∧ ((responses 0).is429 = false → (responses 0).is2xx = false →
          (fetch_snapshot_html_twitter responses timestamp original_url).html = none)
      ∧ ((responses 0).is429 = true → (responses 1).is2xx = false →
          (fetch_snapshot_html_twitter responses timestamp original_url).html = none)) := by
  constructor
  · unfold fetch_snapshot_html_instagram
    cases h0 : responses 0 with
    | exc => simp [HttpOutcome.is429, HttpOutcome.is2xx, h0]
    | ok s b =>
      by_cases h429 : (s == 429) = true
      · cases h1 : responses 1 with
        | exc => simp [HttpOutcome.is429, HttpOutcome.is2xx, h0, h1, h429]
        | ok s2 b2 =>
          by_cases h4292 : (s2 == 429) = true
          · simp [HttpOutcome.is429, HttpOutcome.is2xx, h0, h1, h429, h4292]
          · by_cases h2xx : (200 ≤ s2 && s2 < 300) = true
            · simp [HttpOutcome.is429, HttpOutcome.is2xx, h0, h1, h429, h4292, h2xx]
            · simp [HttpOutcome.is429, HttpOutcome.is2xx, h0, h1, h429, h4292, h2xx]
      · by_cases h2xx : (200 ≤ s && s < 300) = true
        · simp [HttpOutcome.is429, HttpOutcome.is2xx, h0, h429, h2xx]
        · simp [HttpOutcome.is429, HttpOutcome.is2xx, h0, h429, h2xx]
  · unfold fetch_snapshot_html_twitter
    cases h0 : responses 0 with
    | exc => simp [HttpOutcome.is429, HttpOutcome.is2xx, h0]
    | ok s b =>
      by_cases h429 : (s == 429) = true
      · cases h1 : responses 1 with
        | exc => simp [HttpOutcome.is429, HttpOutcome.is2xx, h0, h1, h429]
        | ok s2 b2 =>
          by_cases h2xx : (200 ≤ s2 && s2 < 300) = true
          · simp [HttpOutcome.is429, HttpOutcome.is2xx, h0, h1, h429, h2xx]
          · simp [HttpOutcome.is429, HttpOutcome.is2xx, h0, h1, h429, h2xx]
      · by_cases h2xx : (200 ≤ s && s < 300) = true
        · simp [HttpOutcome.is429, HttpOutcome.is2xx, h0, h429, h2xx]
        · simp [HttpOutcome.is429, HttpOutcome.is2xx, h0, h429, h2xx]

/-- Witness for C9: a rate-limited first GET followed by a 2xx retry,
and a plain 404, at a concrete timestamp and URL. -/
theorem claim_C9_witness :
    (fetch_snapshot_html_instagram http429Then200 ("20150219194607".toList)
        ("http://instagram.com:80/golfarahani".toList)).gets = 2
    ∧ (fetch_snapshot_html_twitter http404 ("20150219194607".toList)
        ("http://twitter.com:80/jack".toList)).html = none := by
  constructor
  · exact ((claim_C9_fetcher http429Then200 ("20150219194607".toList)
      ("http://instagram.com:80/golfarahani".toList)).1.2.2.1).mpr (by decide)
  · exact (claim_C9_fetcher http404 ("20150219194607".toList)
      ("http://twitter.com:80/jack".toList)).2.2.2.2.1 (by decide) (by decide)

theorem log2Go_spec : ∀ (fuel n : Nat), 0 < n → n ≤ fuel →
    2 ^ log2Go fuel n ≤ n ∧ n < 2 ^ (log2Go fuel n + 1) := by
  intro fuel
  induction fuel with
  | zero => intro n hn hle; omega
  | succ f ih =>
    intro n hn hle
    rw [log2Go]
    by_cases h2 : 2 ≤ n
    · rw [if_pos h2]
      obtain ⟨ha, hb⟩ := ih (n / 2) (by omega) (by omega)
      constructor
      · rw [pow_succ]
        omega
      · rw [pow_succ]
        omega
    · rw [if_neg h2]
      constructor
      · simpa using hn
      · simpa using (by omega : n < 2)

theorem natLog2_spec (n : Nat) (hn : 0 < n) :
    2 ^ natLog2 n ≤ n ∧ n < 2 ^ (natLog2 n + 1) :=
  log2Go_spec n n hn le_rfl

theorem natLog2_le_of_lt_pow (m k : Nat) (hm : 0 < m) (h : m < 2 ^ (k + 1)) :
    natLog2 m ≤ k := by
  obtain ⟨h1, _⟩ := natLog2_spec m hm
  by_contra hcon
  push_neg at hcon
  have : 2 ^ (k + 1) ≤ 2 ^ natLog2 m := Nat.pow_le_pow_right (by norm_num) (by omega)
  omega

theorem qlog2_eq (D m : Nat) (hD : 0 < D) (hm : 0 < m) :
    qlog2 (D * m) D = (natLog2 m : Int) := by
  obtain ⟨h1m, h2m⟩ := natLog2_spec m hm
  obtain ⟨h1D, h2D⟩ := natLog2_spec D hD
  obtain ⟨h1N, h2N⟩ := natLog2_spec (D * m) (Nat.mul_pos hD hm)
  set a := natLog2 D with hadef
  set b := natLog2 m with hbdef
  set c := natLog2 (D * m) with hcdef
  have hc1 : a + b ≤ c := by
    by_contra hcon
    push_neg at hcon
    have hpow : 2 ^ (c + 1) ≤ 2 ^ (a + b) := Nat.pow_le_pow_right (by norm_num) (by omega)
    have h3 : 2 ^ a * 2 ^ b ≤ D * m := Nat.mul_le_mul h1D h1m
    rw [← pow_add] at h3
    omega
  have hc2 : c < a + b + 2 := by
    by_contra hcon
    push_neg at hcon
    have hpow : 2 ^ (a + b + 2) ≤ 2 ^ c := Nat.pow_le_pow_right (by norm_num) (by omega)
    have h3 : D * m < 2 ^ (a + 1) * 2 ^ (b + 1) :=
      Nat.mul_lt_mul_of_lt_of_lt h2D h2m
    rw [← pow_add] at h3
    have : a + 1 + (b + 1) = a + b + 2 := by omega
    rw [this] at h3
    omega
  simp only [qlog2, npow2le]
  have hd0 : (0 : Int) ≤ (c : Int) - (a : Int) := by omega
  simp only [if_pos hd0]
  have htn : ((c : Int) - (a : Int)).toNat = c - a := by omega
  simp only [htn]
  rcases (by omega : c = a + b ∨ c = a + b + 1) with hc | hc
  · have hdec : decide (D * 2 ^ (c - a) ≤ D * m) = true := by
      rw [decide_eq_true_eq]
      have hba : c - a = b := by omega
      rw [hba]
      exact Nat.mul_le_mul_left D h1m
    simp only [hdec, if_true]
    omega
  · have hdec : decide (D * 2 ^ (c - a) ≤ D * m) = false := by
      rw [decide_eq_false_iff_not]
      intro hcon
      have hba : c - a = b + 1 := by omega
      rw [hba] at hcon
      have : 2 ^ (b + 1) ≤ m := Nat.le_of_mul_le_mul_left hcon hD
      omega
    simp only [hdec, Bool.false_eq_true, if_false]
    omega

theorem roundPos_int (D m : Nat) (hD : 0 < D) (hm : 0 < m) (hlt : m < 2 ^ 53) :
    roundPos (D * m) D = some (m * 2 ^ (52 - natLog2 m), (natLog2 m : Int) - 52) := by
  have he52 : natLog2 m ≤ 52 := natLog2_le_of_lt_pow m 52 hm hlt
  have h53 : (2:Nat) ^ 53 ≤ 2 ^ 1024 := Nat.pow_le_pow_right (by norm_num) (by norm_num)
  simp only [roundPos]
  rw [qlog2_eq D m hD hm]
  set e := natLog2 m with hedef
  rw [if_neg (by omega : ¬ ((e : Int) < -1022))]
  by_cases h52 : e = 52
  · simp only [if_pos (by omega : (0 : Int) ≤ (e : Int) - 52)]
    have ht : ((e : Int) - 52).toNat = 0 := by omega
    simp only [ht, pow_zero, Nat.mul_one]
    have hq : D * m / D = m := Nat.mul_div_cancel_left m hD
    have hr : D * m % D = 0 := Nat.mul_mod_right D m
    simp only [hq, hr, Nat.mul_zero]
    have hcf : (decide (D < 0) || 0 == D && (m % 2 == 1)) = false := by
      simp
      omega
    simp only [hcf, Bool.false_eq_true, if_false]
    have hovf : decide (2 ^ 1024 ≤ m) = false := by
      simp only [decide_eq_false_iff_not]
      omega
    simp only [hovf, Bool.false_eq_true, if_false]
    rw [show 52 - e = 0 from by omega, pow_zero, Nat.mul_one]
  · simp only [if_neg (by omega : ¬ ((0 : Int) ≤ (e : Int) - 52))]
    have ht : (-((e : Int) - 52)).toNat = 52 - e := by omega
    simp only [ht]
    have hassoc : D * m * 2 ^ (52 - e) = D * (m * 2 ^ (52 - e)) := by ring
    rw [hassoc]
    have hq : D * (m * 2 ^ (52 - e)) / D = m * 2 ^ (52 - e) :=
      Nat.mul_div_cancel_left _ hD
    have hr : D * (m * 2 ^ (52 - e)) % D = 0 := Nat.mul_mod_right D _
    simp only [hq, hr, Nat.mul_zero]
    have hcf : (decide (D < 0) || 0 == D && (m * 2 ^ (52 - e) % 2 == 1)) = false := by
      simp
      omega
    simp only [hcf, Bool.false_eq_true, if_false]
    have hovf : decide (2 ^ (1024 + (52 - e)) ≤ m * 2 ^ (52 - e)) = false := by
      simp only [decide_eq_false_iff_not]
      intro hcon
      have hk : m * 2 ^ (52 - e) < 2 ^ 53 * 2 ^ (52 - e) :=
        (Nat.mul_lt_mul_right (Nat.pos_pow_of_pos _ (by norm_num))).mpr hlt
      rw [← pow_add] at hk
      have hle : (2:Nat) ^ (53 + (52 - e)) ≤ 2 ^ (1024 + (52 - e)) :=
        Nat.pow_le_pow_right (by norm_num) (by omega)
      omega
    simp only [hovf, Bool.false_eq_true, if_false]

theorem mulNat_int (m c : Nat) (hm : 0 < m) (he : natLog2 m < 52) (hc : 0 < c)
    (hlt : m * c < 2 ^ 53) :
    F64.mulNat ⟨false, some (m * 2 ^ (52 - natLog2 m), (natLog2 m : Int) - 52)⟩ c
      = ⟨false, some (m * c * 2 ^ (52 - natLog2 (m * c)), (natLog2 (m * c) : Int) - 52)⟩ := by
  simp only [F64.mulNat]
  rw [if_neg (by positivity : ¬ (m * 2 ^ (52 - natLog2 m) = 0))]
  rw [if_neg (by omega : ¬ ((0 : Int) ≤ (natLog2 m : Int) - 52))]
  have ht : (-((natLog2 m : Int) - 52)).toNat = 52 - natLog2 m := by omega
  rw [ht]
  have hassoc : m * 2 ^ (52 - natLog2 m) * c = 2 ^ (52 - natLog2 m) * (m * c) := by ring
  rw [hassoc]
  rw [roundPos_int (2 ^ (52 - natLog2 m)) (m * c)
    (Nat.pos_pow_of_pos _ (by norm_num)) (Nat.mul_pos hm hc) hlt]

theorem toIntO_int (m : Nat) (he : natLog2 m ≤ 52) :
    F64.toIntO ⟨false, some (m * 2 ^ (52 - natLog2 m), (natLog2 m : Int) - 52)⟩
      = some (m : Int) := by
  simp only [F64.toIntO]
  by_cases h52 : natLog2 m = 52
  · rw [if_pos (by omega : (0 : Int) ≤ (natLog2 m : Int) - 52)]
    have ht : ((natLog2 m : Int) - 52).toNat = 0 := by omega
    rw [ht, pow_zero, Nat.mul_one]
    rw [show 52 - natLog2 m = 0 from by omega, pow_zero, Nat.mul_one]
    simp
  · rw [if_neg (by omega : ¬ ((0 : Int) ≤ (natLog2 m : Int) - 52))]
    have ht : (-((natLog2 m : Int) - 52)).toNat = 52 - natLog2 m := by omega
    rw [ht]
    rw [Nat.mul_div_cancel m (Nat.pos_pow_of_pos _ (by norm_num))]
    simp

theorem f64zero_mulNat (c : Nat) : F64.mulNat F64.zero c = F64.zero := rfl

theorem f64zero_toIntO : F64.toIntO F64.zero = some 0 := rfl

theorem f64OfPyFloat_int (v : PyFloat) (hexp : v.exp = 0) (h0 : 0 < v.mant)
    (hle : v.mant < 2 ^ 53) :
    f64OfPyFloat v = ⟨false, some (v.mant.toNat * 2 ^ (52 - natLog2 v.mant.toNat),
      (natLog2 v.mant.toNat : Int) - 52)⟩ := by
  simp only [f64OfPyFloat]
  rw [if_neg (by omega : ¬ (v.mant = 0))]
  rw [hexp, pow_zero]
  have hr := roundPos_int 1 v.mant.natAbs (by norm_num) (by omega) (by omega)
  rw [one_mul] at hr
  rw [hr]
  have hd : decide (v.mant < 0) = false := by
    simp only [decide_eq_false_iff_not]
    omega
  rw [hd]
  have ha : v.mant.natAbs = v.mant.toNat := by omega
  rw [ha]

theorem f64_pipeline_mul (v : PyFloat) (hexp : v.exp = 0) (h0 : 0 ≤ v.mant)
    (hle : v.mant ≤ 2 ^ 33) (c : Nat) (hc : 0 < c) (hcle : c ≤ 1000000) :
    ((f64OfPyFloat v).mulNat c).toIntO = some (v.mant * (c : Int)) := by
  by_cases hz : v.mant = 0
  · have hf : f64OfPyFloat v = F64.zero := by
      simp only [f64OfPyFloat]
      rw [if_pos hz]
    rw [hf, f64zero_mulNat, f64zero_toIntO, hz]
    norm_num
  · set m := v.mant.toNat with hmdef
    have hm : 0 < m := by omega
    have hm33 : m ≤ 2 ^ 33 := by omega
    have hmc : m * c < 2 ^ 53 := by
      calc m * c ≤ 2 ^ 33 * 1000000 := Nat.mul_le_mul hm33 hcle
        _ < 2 ^ 53 := by norm_num
    have hlog : natLog2 m < 52 := by
      have := natLog2_le_of_lt_pow m 33 hm (by omega)
      omega
    rw [f64OfPyFloat_int v hexp (by omega) (by omega)]
    rw [← hmdef]
    rw [mulNat_int m c hm hlog hc hmc]
    rw [toIntO_int (m * c) (natLog2_le_of_lt_pow (m * c) 52 (Nat.mul_pos hm hc) hmc)]
    have hvm : v.mant = (m : Int) := by omega
    rw [hvm]
    push_cast
    ring_nf

theorem f64_pipeline_id (v : PyFloat) (hexp : v.exp = 0) (h0 : 0 ≤ v.mant)
    (hle : v.mant ≤ 2 ^ 33) :
    (f64OfPyFloat v).toIntO = some v.mant := by
  by_cases hz : v.mant = 0
  · have hf : f64OfPyFloat v = F64.zero := by
      simp only [f64OfPyFloat]
      rw [if_pos hz]
    rw [hf, f64zero_toIntO, hz]
  · set m := v.mant.toNat with hmdef
    have hm : 0 < m := by omega
    have hlog : natLog2 m < 52 := by
      have := natLog2_le_of_lt_pow m 33 hm (by omega)
      omega
    rw [f64OfPyFloat_int v hexp (by omega) (by omega)]
    rw [← hmdef]
    rw [toIntO_int m (by omega)]
    congr 1
    omega

theorem follower_f64_spec (raw : Str) (v : PyFloat)
    (hp : pyFloatOfStr (followerNumberClean raw) = some v)
    (hexp : v.exp = 0) (h0 : 0 ≤ v.mant) (hle : v.mant ≤ 2 ^ 33) :
    parse_follower_number_f64 raw (some ['K']) = some (v.mant * 1000)
    ∧ parse_follower_number_f64 raw (some ['k']) = some (v.mant * 1000)
    ∧ parse_follower_number_f64 raw (some ['M']) = some (v.mant * 1000000)
    ∧ parse_follower_number_f64 raw (some ['m']) = some (v.mant * 1000000)
    ∧ parse_follower_number_f64 raw none = some v.mant := by
  have hK := f64_pipeline_mul v hexp h0 hle 1000 (by norm_num) (by norm_num)
  have hM := f64_pipeline_mul v hexp h0 hle 1000000 (by norm_num) (by norm_num)
  have hI := f64_pipeline_id v hexp h0 hle
  refine ⟨?_, ?_, ?_, ?_, ?_⟩ <;> simp only [parse_follower_number_f64, hp]
  · rw [if_neg (by decide), if_pos (by decide)]
    simpa using hK
  · rw [if_neg (by decide), if_pos (by decide)]
    simpa using hK
  · rw [if_pos (by decide)]
    simpa using hM
  · rw [if_pos (by decide)]
    simpa using hM
  · exact hI

theorem follower_f64_default (raw : Str) (suffix : Option Str)
    (hp : pyFloatOfStr (followerNumberClean raw) = none) :
    parse_follower_number_f64 raw suffix = some 0 := by
  simp only [parse_follower_number_f64, hp]

theorem applymul_f64_spec (s : Str) (v : PyFloat)
    (hp : pyFloatOfStr (parseNumberClean s) = some v)
    (hexp : v.exp = 0) (h0 : 0 ≤ v.mant) (hle : v.mant ≤ 2 ^ 33) :
    apply_multiplier_f64 (parse_number_f64 s) (some ['K']) = some (v.mant * 1000)
    ∧ apply_multiplier_f64 (parse_number_f64 s) (some ['k']) = some (v.mant * 1000)
    ∧ apply_multiplier_f64 (parse_number_f64 s) (some ['M']) = some (v.mant * 1000000)
    ∧ apply_multiplier_f64 (parse_number_f64 s) (some ['m']) = some (v.mant * 1000000)
    ∧ apply_multiplier_f64 (parse_number_f64 s) none = some v.mant := by
  have hK := f64_pipeline_mul v hexp h0 hle 1000 (by norm_num) (by norm_num)
  have hM := f64_pipeline_mul v hexp h0 hle 1000000 (by norm_num) (by norm_num)
  have hI := f64_pipeline_id v hexp h0 hle
  have hps : parse_number_f64 s = f64OfPyFloat v := by
    simp only [parse_number_f64, hp]
  refine ⟨?_, ?_, ?_, ?_, ?_⟩ <;> simp only [apply_multiplier_f64, hps]
  · rw [if_neg (by decide), if_pos (by decide)]
    simpa using hK
  · rw [if_neg (by decide), if_pos (by decide)]
    simpa using hK
  · rw [if_pos (by decide)]
    simpa using hM
  · rw [if_pos (by decide)]
    simpa using hM
  · exact hI

theorem applymul_f64_default (s : Str) (suffix : Option Str)
    (hp : pyFloatOfStr (parseNumberClean s) = none) :
    apply_multiplier_f64 (parse_number_f64 s) suffix = some 0 := by
  have hps : parse_number_f64 s = F64.zero := by
    simp only [parse_number_f64, hp]
  rw [hps]
  cases suffix with
  | none => rfl
  | some sfx =>
    simp only [apply_multiplier_f64]
    split
    · rw [f64zero_mulNat, f64zero_toIntO]
    · split
      · rw [f64zero_mulNat, f64zero_toIntO]
      · rw [f64zero_toIntO]

/-- **C10** (counterexample). CPython evaluates `int(val * 1_000)` in
binary64: on the reachable input `1.015` with suffix `K` (HTML such as
`1.015K Followers`) the faithful pipeline yields 1014 — the nearest
double to 1.015 lies just below it and the rounded product is
1014.9999999999999 — while multiplying the decimal exactly by 1000
yields 1015, so the `K` suffix does not map to exactly x1,000. And
`int()` raises an uncaught `OverflowError` when the parsed value is
infinite (`float("1e400")` is `inf`), so the helper is not total on
arbitrary strings either. -/
theorem claim_C10_counterexample :
    parse_follower_number ("1.015".toList) (some ['K']) = 1015
    ∧ parse_follower_number_f64 ("1.015".toList) (some ['K']) = some 1014
    ∧ apply_multiplier_f64 (parse_number_f64 ("1.015".toList)) (some ['K']) = some 1014
    ∧ parse_follower_number_f64 ("1e400".toList) none = none := by decide

/-- **C10** (amended). Under faithful binary64 semantics the helpers
parse and default as claimed, and the multipliers are exact on integral
values: cleanup strips commas (and spaces for the follower variant); on
the digits/comma/dot/space/sign alphabet an unparseable string returns
0 through the `ValueError` branch with no exception for any suffix; and
whenever the cleaned string parses to an integral value `v ≤ 2 ^ 33`, a
`K`/`k` suffix yields exactly `v * 1000`, `M`/`m` exactly
`v * 1000000`, and no suffix `v` itself (the scaled value stays below
`2 ^ 53`, where binary64 conversion and multiplication are exact). On
fractional values the product is correct only up to binary64 rounding,
and on values parsing past the double range `int()` raises — see the
counterexample. -/
theorem claim_C10_amended :
    (∀ (raw : Str) (suffix : Option Str), numCharset raw = true →
      pyFloatOfStr (followerNumberClean raw) = none →
      parse_follower_number_f64 raw suffix = some 0)
    ∧ (∀ (raw : Str) (v : PyFloat),
      pyFloatOfStr (followerNumberClean raw) = some v →
      v.exp = 0 → 0 ≤ v.mant → v.mant ≤ 2 ^ 33 →
      parse_follower_number_f64 raw (some ['K']) = some (v.mant * 1000)
      ∧ parse_follower_number_f64 raw (some ['k']) = some (v.mant * 1000)
      ∧ parse_follower_number_f64 raw (some ['M']) = some (v.mant * 1000000)
      ∧ parse_follower_number_f64 raw (some ['m']) = some (v.mant * 1000000)
      ∧ parse_follower_number_f64 raw none = some v.mant)
    ∧ (∀ (s : Str) (suffix : Option Str), numCharset s = true →
      pyFloatOfStr (parseNumberClean s) = none →
      apply_multiplier_f64 (parse_number_f64 s) suffix = some 0)
    ∧ (∀ (s : Str) (v : PyFloat),
      pyFloatOfStr (parseNumberClean s) = some v →
      v.exp = 0 → 0 ≤ v.mant → v.mant ≤ 2 ^ 33 →
      apply_multiplier_f64 (parse_number_f64 s) (some ['K']) = some (v.mant * 1000)
      ∧ apply_multiplier_f64 (parse_number_f64 s) (some ['k']) = some (v.mant * 1000)
      ∧ apply_multiplier_f64 (parse_number_f64 s) (some ['M']) = some (v.mant * 1000000)
      ∧ apply_multiplier_f64 (parse_number_f64 s) (some ['m']) = some (v.mant * 1000000)
      ∧ apply_multiplier_f64 (parse_number_f64 s) none = some v.mant) := by
  refine ⟨?_, ?_, ?_, ?_⟩
  · intro raw suffix _ hp
    exact follower_f64_default raw suffix hp
  · intro raw v hp hexp h0 hle
    exact follower_f64_spec raw v hp hexp h0 hle
  · intro s suffix _ hp
    exact applymul_f64_default s suffix hp
  · intro s v hp hexp h0 hle
    exact applymul_f64_spec s v hp hexp h0 hle

/-- Witness for C10 (amended): the hypotheses discharged at concrete
inputs — the integral strings `8,500` (with K) and `3,646` (no suffix),
and the unparseable all-charset string `1.2.3` for both helpers. -/
theorem claim_C10_witness :
    parse_follower_number_f64 ("8,500".toList) (some ['K']) = some 8500000
    ∧ parse_follower_number_f64 ("1.2.3".toList) (some ['K']) = some 0
    ∧ apply_multiplier_f64 (parse_number_f64 ("3,646".toList)) none = some 3646
    ∧ apply_multiplier_f64 (parse_number_f64 ("1.2.3".toList)) (some ['K']) = some 0 := by
  refine ⟨?_, ?_, ?_, ?_⟩
  · have h := (claim_C10_amended.2.1 ("8,500".toList) ⟨8500, 0⟩ (by decide) rfl
      (by decide) (by decide)).1
    simpa using h
  · exact claim_C10_amended.1 ("1.2.3".toList) (some ['K']) (by decide) (by decide)
  · have h := (claim_C10_amended.2.2.2 ("3,646".toList) ⟨3646, 0⟩ (by decide) rfl
      (by decide) (by decide)).2.2.2.2
    simpa using h
  · exact claim_C10_amended.2.2.1 ("1.2.3".toList) (some ['K']) (by decide) (by decide)

/-- **C3** (confirmed). In the per-snapshot loop of all three job
runners, a cache row with every metric column NULL behaves exactly like
no cache row at all: the step performs the live fetch and the cache
upsert and records `source = wayback`; a cache row with at least one
metric present is used directly with no fetch and no upsert and records
`source = cache`. -/
theorem claim_C3_null_cache_is_miss :
    (∀ (c : IGCacheRow) (html : Option Str),
      (c.followers = none → c.following = none → c.posts = none →
        instagram_job_snapshot_step (some c) html = instagram_job_snapshot_step none html
        ∧ (instagram_job_snapshot_step (some c) html).fetched = true
        ∧ (instagram_job_snapshot_step (some c) html).upsert = true
        ∧ (instagram_job_snapshot_step (some c) html).source = RowSource.wayback)
      ∧ ((c.followers.isSome ∨ c.following.isSome ∨ c.posts.isSome) →
        (instagram_job_snapshot_step (some c) html).fetched = false
        ∧ (instagram_job_snapshot_step (some c) html).upsert = false
        ∧ (instagram_job_snapshot_step (some c) html).source = RowSource.cache))
    ∧ (∀ (c : TwCacheRow) (html : Option Str),
      (c.followers = none →
        twitter_job_snapshot_step (some c) html = twitter_job_snapshot_step none html
        ∧ (twitter_job_snapshot_step (some c) html).fetched = true
        ∧ (twitter_job_snapshot_step (some c) html).upsert = true
        ∧ (twitter_job_snapshot_step (some c) html).source = RowSource.wayback)
      ∧ (c.followers.isSome →
        (twitter_job_snapshot_step (some c) html).fetched = false
        ∧ (twitter_job_snapshot_step (some c) html).upsert = false
        ∧ (twitter_job_snapshot_step (some c) html).source = RowSource.cache))
    ∧ (∀ (c : TwCacheRow) (html : Option Str),
      (c.followers = none →
        youtube_job_snapshot_step (some c) html = youtube_job_snapshot_step none html
        ∧ (youtube_job_snapshot_step (some c) html).fetched = true
        ∧ (youtube_job_snapshot_step (some c) html).upsert = true
        ∧ (youtube_job_snapshot_step (some c) html).source = RowSource.wayback)
      ∧ (c.followers.isSome →
        (youtube_job_snapshot_step (some c) html).fetched = false
        ∧ (youtube_job_snapshot_step (some c) html).upsert = false
        ∧ (youtube_job_snapshot_step (some c) html).source = RowSource.cache)) := by
  refine ⟨?_, ?_, ?_⟩
  · intro c html
    constructor
    · intro hf hg hp
      have hm : (c.followers.isSome || c.following.isSome || c.posts.isSome) = false := by
        simp [hf, hg, hp]
      refine ⟨?_, ?_⟩
      · simp [instagram_job_snapshot_step, hm]
      · cases html <;>
          simp [instagram_job_snapshot_step, hm,
            instagram_job_snapshot_step.instagram_job_fetch_branch]
    · intro hsome
      have hm : (c.followers.isSome || c.following.isSome || c.posts.isSome) = true := by
        rcases hsome with h | h | h <;> simp [h]
      simp [instagram_job_snapshot_step, hm]
  · intro c html
    constructor
    · intro hf
      refine ⟨?_, ?_⟩
      · simp only [twitter_job_snapshot_step, hf, Option.isSome_none, Bool.false_eq_true,
          if_false]
      · simp only [twitter_job_snapshot_step, hf, Option.isSome_none, Bool.false_eq_true,
          if_false]
        cases html <;> simp [twitter_job_snapshot_step.twitter_job_fetch_branch]
    · intro hsome
      simp [twitter_job_snapshot_step, hsome]
  · intro c html
    constructor
    · intro hf
      refine ⟨?_, ?_⟩
      · simp only [youtube_job_snapshot_step, hf, Option.isSome_none, Bool.false_eq_true,
          if_false]
      · simp only [youtube_job_snapshot_step, hf, Option.isSome_none, Bool.false_eq_true,
          if_false]
        cases html <;> simp [youtube_job_snapshot_step.youtube_job_fetch_branch]
    · intro hsome
      simp [youtube_job_snapshot_step, hsome]

/-- Witness for C3: the all-NULL row forces a fetch and upsert, the row
with metrics is served from cache, at concrete rows and HTML. -/
theorem claim_C3_witness :
    (instagram_job_snapshot_step (some igNullCacheRow) (some igHtml2015)).fetched = true
    ∧ (instagram_job_snapshot_step (some igHitCacheRow) (some igHtml2015)).source
        = RowSource.cache
    ∧ (twitter_job_snapshot_step (some twNullCacheRow) none).upsert = true
    ∧ (youtube_job_snapshot_step (some twHitCacheRow) none).fetched = false := by
  refine ⟨?_, ?_, ?_, ?_⟩
  · exact ((claim_C3_null_cache_is_miss.1 igNullCacheRow (some igHtml2015)).1
      rfl rfl rfl).2.1
  · exact ((claim_C3_null_cache_is_miss.1 igHitCacheRow (some igHtml2015)).2
      (Or.inl (by decide))).2.2
  · exact ((claim_C3_null_cache_is_miss.2.1 twNullCacheRow none).1 rfl).2.2.1
  · exact ((claim_C3_null_cache_is_miss.2.2 twHitCacheRow none).2 (by decide)).1

/-- **C6** (counterexample). The claim says a terminal `canceled` status
admits no further transition. But `cancel_job` on a queued job returns
`True` and writes `canceled`, and the runner's claim write
(`UPDATE ... SET status = 'running'`, no status guard) then overwrites
`canceled` with `running`: a concrete two-event schedule exhibits
`canceled → running`. -/
theorem claim_C6_counterexample :
    (job_step 1 initJobState .cancel).2 = true
    ∧ (job_step 1 initJobState .cancel).1.status = JobStatus.canceled
    ∧ (job_step 1 (job_step 1 initJobState .cancel).1 .runnerClaim).1.status
        = JobStatus.running := by decide

/-- The cancel-free invariant: the runner phase determines the status
(`notStarted → queued`, `looping`/`inBody → running`,
`stopped → completed | failed`), and `canceled` never appears. -/
theorem reachableCF_inv (total : Nat) (s : JobState) (h : ReachableCF total s) :
    (s.phase = .notStarted → s.status = .queued)
    ∧ ((s.phase = .looping ∨ s.phase = .inBody) → s.status = .running)
    ∧ (s.phase = .stopped → (s.status = .completed ∨ s.status = .failed))
    ∧ s.status ≠ .canceled := by
  induction h with
  | init => simp [initJobState]
  | @step s e hs he ih =>
    obtain ⟨ih1, ih2, ih3, ih4⟩ := ih
    cases e with
    | cancel => exact absurd rfl he
    | runnerClaim =>
      by_cases hp : s.phase = .notStarted
      · simp [job_step, hp]
      · have hid : (job_step total s .runnerClaim).1 = s := by simp [job_step, hp]
        rw [hid]; exact ⟨ih1, ih2, ih3, ih4⟩
    | runnerCheck =>
      by_cases hp : s.phase = .looping ∧ s.idx < total
      · have hst : s.status = .running := ih2 (Or.inl hp.1)
        simp [job_step, hp, hst]
      · have hid : (job_step total s .runnerCheck).1 = s := by simp [job_step, hp]
        rw [hid]; exact ⟨ih1, ih2, ih3, ih4⟩
    | runnerBody =>
      by_cases hp : s.phase = .inBody
      · have hst : s.status = .running := ih2 (Or.inr hp)
        simp [job_step, hp, hst]
      · have hid : (job_step total s .runnerBody).1 = s := by simp [job_step, hp]
        rw [hid]; exact ⟨ih1, ih2, ih3, ih4⟩
    | runnerFinish =>
      by_cases hp : s.phase = .looping ∧ s.idx = total
      · simp [job_step, hp]
      · have hid : (job_step total s .runnerFinish).1 = s := by simp [job_step, hp]
        rw [hid]; exact ⟨ih1, ih2, ih3, ih4⟩
    | runnerCrash =>
      by_cases hp : s.phase ≠ .stopped
      · simp [job_step, hp]
      · have hid : (job_step total s .runnerCrash).1 = s := by simp [job_step, hp]
        rw [hid]; exact ⟨ih1, ih2, ih3, ih4⟩

/-- **C6** (amended). `cancel_job` returns `True` — and then writes
`canceled` — exactly when the job exists with status `queued` or
`running`, and leaves the row unchanged when it returns `False`. In
executions without cancellation the status machine is monotone: a single
runner event moves the status along
`queued → running → {completed, failed}` (with a direct
`queued → failed` when the runner fails before its claim write), and
`canceled` is unreachable. The original claim's terminal-state clause
fails because the claim and finish writes are not guarded by the current
status (see the counterexample). -/
theorem claim_C6_amended :
    (∀ job : Option JobState,
      ((cancel_job job).2 = true
        ↔ ∃ s, job = some s ∧ (s.status = .queued ∨ s.status = .running))
      ∧ (∀ s, job = some s → (cancel_job job).2 = true →
          (cancel_job job).1 = some { s with status := .canceled })
      ∧ (∀ s, job = some s → (cancel_job job).2 = false → (cancel_job job).1 = some s))
    ∧ (∀ (total : Nat) (s : JobState) (e : JobEvent), ReachableCF total s →
        e ≠ .cancel → statusStepOK s.status ((job_step total s e).1).status)
    ∧ (∀ (total : Nat) (s : JobState), ReachableCF total s →
        s.status ≠ .canceled) := by
  refine ⟨?_, ?_, ?_⟩
  · intro job
    refine ⟨?_, ?_, ?_⟩
    · cases job with
      | none => simp [cancel_job]
      | some s =>
        by_cases hc : s.status = .queued ∨ s.status = .running
        · simp [cancel_job, hc]
        · simp [cancel_job, hc]
    · intro s hj hb
      subst hj
      by_cases hc : s.status = .queued ∨ s.status = .running
      · simp [cancel_job, hc]
      · simp [cancel_job, hc] at hb
    · intro s hj hb
      subst hj
      by_cases hc : s.status = .queued ∨ s.status = .running
      · simp [cancel_job, hc] at hb
      · simp [cancel_job, hc]
  · intro total s e hs he
    obtain ⟨ih1, ih2, ih3, ih4⟩ := reachableCF_inv total s hs
    cases e with
    | cancel => exact absurd rfl he
    | runnerClaim =>
      by_cases hp : s.phase = .notStarted
      · have hq : s.status = .queued := ih1 hp
        simp [job_step, hp, statusStepOK, hq]
      · simp [job_step, hp, statusStepOK]
    | runnerCheck =>
      by_cases hp : s.phase = .looping ∧ s.idx < total
      · have hst : s.status = .running := ih2 (Or.inl hp.1)
        simp [job_step, hp, hst, statusStepOK]
      · simp [job_step, hp, statusStepOK]
    | runnerBody =>
      by_cases hp : s.phase = .inBody
      · simp [job_step, hp, statusStepOK]
      · simp [job_step, hp, statusStepOK]
    | runnerFinish =>
      by_cases hp : s.phase = .looping ∧ s.idx = total
      · have hst : s.status = .running := ih2 (Or.inl hp.1)
        simp [job_step, hp, hst, statusStepOK]
      · simp [job_step, hp, statusStepOK]
    | runnerCrash =>
      by_cases hp : s.phase ≠ .stopped
      · rcases (by cases hph : s.phase <;> simp_all :
            s.phase = .notStarted ∨ s.phase = .looping ∨ s.phase = .inBody) with
          h | h | h
        · have hq : s.status = .queued := ih1 h
          simp [job_step, hp, statusStepOK, hq]
        · have hr : s.status = .running := ih2 (Or.inl h)
          simp [job_step, hp, statusStepOK, hr]
        · have hr : s.status = .running := ih2 (Or.inr h)
          simp [job_step, hp, statusStepOK, hr]
      · simp [job_step, hp, statusStepOK]
  · intro total s hs
    exact (reachableCF_inv total s hs).2.2.2

/-- Witness for C6 (amended): cancellation succeeds on a fresh queued
job; the claim step on the fresh job is a legal `queued → running` move;
cancellation fails on a completed job. -/
theorem claim_C6_witness :
    (cancel_job (some initJobState)).2 = true
    ∧ statusStepOK initJobState.status ((job_step 1 initJobState .runnerClaim).1).status
    ∧ (cancel_job (some ⟨.completed, .stopped, 1, 1⟩)).2 = false := by
  refine ⟨?_, ?_, ?_⟩
  · exact ((claim_C6_amended.1 (some initJobState)).1).mpr
      ⟨initJobState, rfl, Or.inl rfl⟩
  · exact claim_C6_amended.2.1 1 initJobState .runnerClaim ReachableCF.init (by decide)
  · by_contra hb
    have := ((claim_C6_amended.1 (some ⟨.completed, .stopped, 1, 1⟩)).1).mp
      (by revert hb; cases h : (cancel_job (some ⟨.completed, .stopped, 1, 1⟩)).2 <;> simp)
    obtain ⟨s, hs, hor⟩ := this
    cases hs
    rcases hor with h | h <;> simp at h

theorem pf_toQ_ne_zero (m : Int) (e : Nat) (h : m ≠ 0) : (pf m e).toQ ≠ 0 := by
  intro hz
  exact h ((PyFloat.toQ_eq_zero_iff (pf m e)).mp hz)

theorem pf_toQ_pos (m : Int) (e : Nat) (h : 0 < m) : 0 < (pf m e).toQ :=
  PyFloat.toQ_pos_of_mant_pos (pf m e) h

theorem pf_zero_toQ : (pf 0 0).toQ = 0 := by
  simp [pf, PyFloat.toQ]

/-- Every Python slice is a contiguous infix of the sliced string. -/
theorem pySlice_infix (l : Str) (i j : Nat) : pySlice l i j <:+: l := by
  refine ⟨(l.take j).take i, l.drop j, ?_⟩
  unfold pySlice
  rw [List.take_append_drop, List.take_append_drop]

theorem sanitizeFollowers_some (v : Option Int) (x : Int)
    (h : sanitizeFollowers v = some x) : 0 < x ∧ x < 1000000000 := by
  cases v with
  | none => simp [sanitizeFollowers] at h
  | some y =>
    simp only [sanitizeFollowers, Option.some_bind] at h
    split at h
    · cases h
    · cases h
      rename_i hcond
      simp only [Bool.or_eq_true, decide_eq_true_eq, not_or] at hcond
      omega

theorem sanitizeSmallCount_some (v : Option Int) (x : Int)
    (h : sanitizeSmallCount v = some x) : 0 ≤ x ∧ x < 100000000 := by
  cases v with
  | none => simp [sanitizeSmallCount] at h
  | some y =>
    simp only [sanitizeSmallCount, Option.some_bind] at h
    split at h
    · cases h
    · cases h
      rename_i hcond
      simp only [Bool.or_eq_true, decide_eq_true_eq, not_or] at hcond
      omega

/-- Values accepted by the meta-strategy loop lie in `(0, 1e10)`. -/
theorem metaStratLoop_bounds (rev : Bool) (noun : Str) (optS : Bool) (html : Str) :
    ∀ (fuel pos : Nat) (r : Int × Str),
      metaStratLoop rev noun optS html fuel pos = some r →
      0 < r.1 ∧ r.1 < 10000000000 := by
  intro fuel
  induction fuel with
  | zero => intro pos r h; simp [metaStratLoop] at h
  | succ n ih =>
    intro pos r h
    rw [metaStratLoop] at h
    cases hm : searchMeta rev metaKeyNames metaKeyVals html pos with
    | none => simp only [hm] at h; exact Option.noConfusion h
    | some hit =>
      simp only [hm] at h
      cases hs : searchNumUnit true noun optS (pySlice html hit.gs hit.ge) 0 with
      | none => simp only [hs] at h; exact ih hit.fullEnd r h
      | some sub =>
        simp only [hs] at h
        split at h
        · cases h
          rename_i hcond
          simp only [Bool.and_eq_true, decide_eq_true_eq] at hcond
          exact ⟨hcond.1, hcond.2⟩
        · exact ih hit.fullEnd r h

/-- Values accepted by the visible-text loop lie in `(0, 1e10)`. -/
theorem textStratLoop_bounds (noun : Str) (optS : Bool) (html : Str) :
    ∀ (fuel pos : Nat) (r : Int × Str),
      textStratLoop noun optS html fuel pos = some r →
      0 < r.1 ∧ r.1 < 10000000000 := by
  intro fuel
  induction fuel with
  | zero => intro pos r h; simp [textStratLoop] at h
  | succ n ih =>
    intro pos r h
    rw [textStratLoop] at h
    cases hm : searchNumUnit true noun optS html pos with
    | none => simp only [hm] at h; exact Option.noConfusion h
    | some m =>
      simp only [hm] at h
      split at h
      · cases h
        rename_i hcond
        simp only [Bool.and_eq_true, decide_eq_true_eq] at hcond
        exact ⟨hcond.1, hcond.2⟩
      · exact ih m.m0e r h

/-- Values accepted by the reversed-pattern loop lie in `(0, 1e10)`. -/
theorem revStratLoop_bounds (html : Str) :
    ∀ (fuel pos : Nat) (r : Int × Str),
      revStratLoop html fuel pos = some r → 0 < r.1 ∧ r.1 < 10000000000 := by
  intro fuel
  induction fuel with
  | zero => intro pos r h; simp [revStratLoop] at h
  | succ n ih =>
    intro pos r h
    rw [revStratLoop] at h
    cases hm : searchSubsRev html pos with
    | none => simp only [hm] at h; exact Option.noConfusion h
    | some m =>
      simp only [hm] at h
      split at h
      · cases h
        rename_i hcond
        simp only [Bool.and_eq_true, decide_eq_true_eq] at hcond
        exact ⟨hcond.1, hcond.2⟩
      · exact ih m.m0e r h

/-- Shape of a successful `edge_followed_by` extraction: a bounded value,
confidence 0.5, and evidence that is the truncated match slice. -/
theorem edge_some_spec (html : Str) (er : ExtractionResult)
    (h : extract_followers_from_edge_followed_by html = some er) :
    (∃ v : Int, er.value = some v ∧ 0 < v ∧ v < 1000000000)
    ∧ er.confidence = pf 5 1
    ∧ ∃ i j, er.evidence = some (truncEll (pySlice html i j)) := by
  unfold extract_followers_from_edge_followed_by at h
  split at h
  · exact Option.noConfusion h
  · cases hm : searchCountBrace ("edge_followed_by".toList) html with
    | none => rw [hm] at h; exact Option.noConfusion h
    | some m =>
      simp only [hm] at h
      split at h
      · cases h
        rename_i hcond
        simp only [Bool.and_eq_true, decide_eq_true_eq] at hcond
        refine ⟨⟨(digitsToNat m.digits : Int), rfl, ?_, ?_⟩, rfl, m.m0s, m.m0e, rfl⟩
        · exact_mod_cast hcond.1
        · exact_mod_cast hcond.2
      · exact Option.noConfusion h

/-- Shape of a successful `_sharedData` extraction: bounded counts. -/
theorem shared_some_spec (html : Str) (sd : SharedCounts)
    (h : extract_from_shared_data html = some sd) :
    (0 < sd.followers ∧ sd.followers < 1000000000)
    ∧ (∀ v, sd.following = some v → v < 100000000)
    ∧ (∀ v, sd.posts = some v → v < 100000000) := by
  unfold extract_from_shared_data at h
  split at h
  · exact Option.noConfusion h
  · cases hm : searchCountBrace ("followed_by".toList) html with
    | none => rw [hm] at h; exact Option.noConfusion h
    | some fb =>
      simp only [hm] at h
      split at h
      · rename_i hcond heq
        exact Option.noConfusion h
      · rename_i f heq
        cases h
        split at heq
        · cases heq
          rename_i hcond
          simp only [Bool.and_eq_true, decide_eq_true_eq] at hcond
          refine ⟨⟨hcond.1, hcond.2⟩, ?_, ?_⟩
          · intro v hv
            cases hg : searchCountBrace ("follows".toList) html with
            | none => rw [hg] at hv; exact Option.noConfusion hv
            | some m =>
              simp only [hg, Option.some_bind] at hv
              split at hv
              · cases hv
                rename_i hb
                simpa using hb
              · exact Option.noConfusion hv
          · intro v hv
            cases hg : searchCountBrace ("media".toList) html with
            | none => rw [hg] at hv; exact Option.noConfusion hv
            | some m =>
              simp only [hg, Option.some_bind] at hv
              split at hv
              · cases hv
                rename_i hb
                simpa using hb
              · exact Option.noConfusion hv
        · exact Option.noConfusion heq

/-- Every candidate content is derived from a literal window of the
HTML: meta contents are unescaped content groups, context contents are
normalized windows. -/
theorem candidates_shape (html : Str) (src : CandSource) (content : Str)
    (h : (src, content) ∈ extract_evidence_candidates html) :
    ∃ w, w <:+: html
      ∧ (content = pyUnescape w
        ∨ content = (wsCollapse (stripWs (w.map
            (fun c => if c == '\n' || c == '\x0d' then ' ' else c)))).take 140) := by
  unfold extract_evidence_candidates at h
  split at h
  · simp at h
  · rcases List.mem_append.mp h with h12 | h3
    · rcases List.mem_append.mp h12 with h1 | h2
      · cases hs : searchMeta false ["property".toList] ["og:description".toList] html 0 with
        | none => rw [hs] at h1; simp at h1
        | some hit =>
          rw [hs] at h1
          simp only [Option.toList_some, List.map_cons, List.map_nil,
            List.mem_singleton, Prod.mk.injEq] at h1
          exact ⟨pySlice html hit.gs hit.ge, pySlice_infix html hit.gs hit.ge,
            Or.inl h1.2⟩
      · cases hs : searchMeta false ["name".toList] ["description".toList] html 0 with
        | none => rw [hs] at h2; simp at h2
        | some hit =>
          rw [hs] at h2
          simp only [Option.toList_some, List.map_cons, List.map_nil,
            List.mem_singleton, Prod.mk.injEq] at h2
          exact ⟨pySlice html hit.gs hit.ge, pySlice_infix html hit.gs hit.ge,
            Or.inl h2.2⟩
    · rw [List.mem_filterMap] at h3
      obtain ⟨nounOptS, _, heq⟩ := h3
      cases hl : searchLit nounOptS.1 nounOptS.2 html with
      | none => rw [hl] at heq; exact Option.noConfusion heq
      | some span =>
        simp only [hl, Option.some_bind] at heq
        split at heq
        · exact Option.noConfusion heq
        · cases heq
          exact ⟨pySlice html (span.1 - 60) (min html.length (span.2 + 80)),
            pySlice_infix html _ _, Or.inr rfl⟩

/-- The confidence a candidate gets is one of the literal constants. -/
theorem candConf_cases (src : CandSource) (vals : ParsedVals) :
    candConf src vals = pf 75 2 ∨ candConf src vals = pf 55 2
      ∨ candConf src vals = pf 2 1 := by
  unfold candConf
  split
  · exact Or.inl rfl
  · split
    · exact Or.inl rfl
    · split
      · exact Or.inr (Or.inl rfl)
      · exact Or.inr (Or.inr rfl)

/-- Invariant of the best-candidate fold: the kept confidence is one of
the constants, the kept values are sanity-bounded, and the kept evidence
is the truncation of some candidate's content. -/
theorem candFold_inv (html : Str) :
    ∀ (l : List (CandSource × Str)) (acc : Option BestCand),
      (∀ b, acc = some b →
        (b.conf = pf 75 2 ∨ b.conf = pf 55 2 ∨ b.conf = pf 2 1)
        ∧ (∀ v, b.vals.f = some v → 0 < v ∧ v < 1000000000)
        ∧ (∀ v, b.vals.g = some v → 0 ≤ v ∧ v < 100000000)
        ∧ (∀ v, b.vals.p = some v → 0 ≤ v ∧ v < 100000000)
        ∧ ∃ src content, (src, content) ∈ extract_evidence_candidates html
            ∧ b.ev = truncEll content) →
      (∀ c ∈ l, c ∈ extract_evidence_candidates html) →
      ∀ b, l.foldl candStep acc = some b →
        (b.conf = pf 75 2 ∨ b.conf = pf 55 2 ∨ b.conf = pf 2 1)
        ∧ (∀ v, b.vals.f = some v → 0 < v ∧ v < 1000000000)
        ∧ (∀ v, b.vals.g = some v → 0 ≤ v ∧ v < 100000000)
        ∧ (∀ v, b.vals.p = some v → 0 ≤ v ∧ v < 100000000)
        ∧ ∃ src content, (src, content) ∈ extract_evidence_candidates html
            ∧ b.ev = truncEll content := by
  intro l
  induction l with
  | nil =>
    intro acc hacc _ b hb
    exact hacc b hb
  | cons c cs ih =>
    intro acc hacc hmem b hb
    rw [List.foldl_cons] at hb
    refine ih (candStep acc c) ?_ (fun x hx => hmem x (List.mem_cons_of_mem c hx)) b hb
    intro b' hb'
    simp only [candStep] at hb'
    split at hb'
    · exact hacc b' hb'
    · split at hb'
      · exact hacc b' hb'
      · split at hb'
        · cases hb'
          refine ⟨candConf_cases c.1 _, ?_, ?_, ?_, ?_⟩
          · intro v hv
            exact sanitizeFollowers_some _ v hv
          · intro v hv
            exact sanitizeSmallCount_some _ v hv
          · intro v hv
            exact sanitizeSmallCount_some _ v hv
          · refine ⟨c.1, c.2, ?_, rfl⟩
            simpa using hmem c (List.mem_cons_self c cs)
        · exact hacc b' hb'

/-- Invariant of the best-candidate fold: the kept confidence is one of
the constants, the kept values are sanity-bounded, and the kept evidence
is the truncation of some candidate's content. -/
theorem candidateScan_inv (html : Str) (b : BestCand)
    (h : candidateScan html = some b) :
    (b.conf = pf 75 2 ∨ b.conf = pf 55 2 ∨ b.conf = pf 2 1)
    ∧ (∀ v, b.vals.f = some v → 0 < v ∧ v < 1000000000)
    ∧ (∀ v, b.vals.g = some v → 0 ≤ v ∧ v < 100000000)
    ∧ (∀ v, b.vals.p = some v → 0 ≤ v ∧ v < 100000000)
    ∧ ∃ src content, (src, content) ∈ extract_evidence_candidates html
        ∧ b.ev = truncEll content := by
  exact candFold_inv html (extract_evidence_candidates html) none
    (fun b' hb' => Option.noConfusion hb') (fun c hc => hc) b h

/-- Shape of the direct-scan result: either nothing survives, or a
single confidence (0.5 or 0.35) is shared and each set metric carries a
bounded value and a truncated match-slice evidence. -/
theorem directScan_cases (html : Str) :
    directScan html = emptyIGMetrics
    ∨ ∃ conf, (conf = pf 5 1 ∨ conf = pf 35 2)
      ∧ ((directScan html).followers = emptyExtraction
          ∨ ∃ v i j, (directScan html).followers
              = ⟨some v, conf, some ((pySlice html i j).take 140)⟩
            ∧ 0 < v ∧ v < 1000000000)
      ∧ ((directScan html).following = emptyExtraction
          ∨ ∃ v i j, (directScan html).following
              = ⟨some v, conf, some ((pySlice html i j).take 140)⟩
            ∧ 0 ≤ v ∧ v < 100000000)
      ∧ ((directScan html).posts = emptyExtraction
          ∨ ∃ v i j, (directScan html).posts
              = ⟨some v, conf, some ((pySlice html i j).take 140)⟩
            ∧ 0 ≤ v ∧ v < 100000000) := by
  simp only [directScan]
  set fm0 := directMatch ("followers".toList) false html with hfm0
  set gm0 := directMatch ("following".toList) false html with hgm0
  set pm0 := directMatch ("post".toList) true html with hpm0
  set fD := sanitizeFollowers (parseNumHit fm0) with hfD
  set gD := sanitizeSmallCount (parseNumHit gm0) with hgD
  set pD := sanitizeSmallCount (parseNumHit pm0) with hpD
  by_cases hcnt : 1 ≤ countFound ⟨fD, gD, pD⟩
  · rw [if_pos hcnt]
    refine Or.inr ⟨if 2 ≤ countFound ⟨fD, gD, pD⟩ then pf 5 1 else pf 35 2, ?_, ?_, ?_, ?_⟩
    · split
      · exact Or.inl rfl
      · exact Or.inr rfl
    · cases hf : fD with
      | none => left; simp [hf]
      | some v =>
        right
        cases hfm : fm0 with
        | none =>
          exfalso
          rw [hfD, hfm] at hf
          simp [parseNumHit, sanitizeFollowers] at hf
        | some hhit =>
          refine ⟨v, hhit.m0s, hhit.m0e, ?_, ?_⟩
          · simp [hf, hfm]
          · exact sanitizeFollowers_some _ v (by rw [← hfD, hf])
    · cases hg : gD with
      | none => left; simp [hg]
      | some v =>
        right
        cases hgm : gm0 with
        | none =>
          exfalso
          rw [hgD, hgm] at hg
          simp [parseNumHit, sanitizeSmallCount] at hg
        | some hhit =>
          refine ⟨v, hhit.m0s, hhit.m0e, ?_, ?_⟩
          · simp [hg, hgm]
          · exact sanitizeSmallCount_some _ v (by rw [← hgD, hg])
    · cases hp : pD with
      | none => left; simp [hp]
      | some v =>
        right
        cases hpm : pm0 with
        | none =>
          exfalso
          rw [hpD, hpm] at hp
          simp [parseNumHit, sanitizeSmallCount] at hp
        | some hhit =>
          refine ⟨v, hhit.m0s, hhit.m0e, ?_, ?_⟩
          · simp [hp, hpm]
          · exact sanitizeSmallCount_some _ v (by rw [← hpD, hp])
  · rw [if_neg hcnt]
    exact Or.inl rfl

/-- Combined per-path specification of `extract_instagram_metrics`:
sanity bounds on every returned value, positive confidence whenever a
value is present, and the evidence-shape property for every evidence
string. -/
theorem extract_instagram_metrics_spec (html : Str) :
    (∀ v, (extract_instagram_metrics html).followers.value = some v →
        0 < v ∧ v < 1000000000)
    ∧ (∀ v, (extract_instagram_metrics html).following.value = some v →
        0 ≤ v ∧ v < 100000000)
    ∧ (∀ v, (extract_instagram_metrics html).posts.value = some v →
        0 ≤ v ∧ v < 100000000)
    ∧ (∀ v, (extract_instagram_metrics html).followers.value = some v →
        0 < (extract_instagram_metrics html).followers.confidence.toQ)
    ∧ (∀ v, (extract_instagram_metrics html).following.value = some v →
        0 < (extract_instagram_metrics html).following.confidence.toQ)
    ∧ (∀ v, (extract_instagram_metrics html).posts.value = some v →
        0 < (extract_instagram_metrics html).posts.confidence.toQ)
    ∧ (∀ e, (extract_instagram_metrics html).followers.evidence = some e →
        evidenceShapeIG html e)
    ∧ (∀ e, (extract_instagram_metrics html).following.evidence = some e →
        evidenceShapeIG html e)
    ∧ (∀ e, (extract_instagram_metrics html).posts.evidence = some e →
        evidenceShapeIG html e) := by
  cases hc : candidateScan html with
  | some best =>
    obtain ⟨hconf, hf, hg, hp, src, content, hmem, hev⟩ := candidateScan_inv html best hc
    have heq : extract_instagram_metrics html =
        ⟨⟨best.vals.f, best.conf, some best.ev⟩, ⟨best.vals.g, best.conf, some best.ev⟩,
          ⟨best.vals.p, best.conf, some best.ev⟩⟩ := by
      unfold extract_instagram_metrics
      rw [hc]
    rw [heq]
    have hpos : 0 < best.conf.toQ := by
      rcases hconf with h | h | h <;> rw [h] <;> exact pf_toQ_pos _ _ (by norm_num)
    have hshape : evidenceShapeIG html best.ev := by
      obtain ⟨w, hw, hcw⟩ := candidates_shape html src content hmem
      rcases hcw with h1 | h2
      · exact Or.inr ⟨w, hw, Or.inl (by rw [hev, h1])⟩
      · exact Or.inr ⟨w, hw, Or.inr (Or.inl (by rw [hev, h2]))⟩
    refine ⟨fun v hv => hf v hv, fun v hv => hg v hv, fun v hv => hp v hv,
      fun v _ => hpos, fun v _ => hpos, fun v _ => hpos,
      ?_, ?_, ?_⟩ <;> · intro e he; cases he; exact hshape
  | none =>
    cases hs : extract_from_shared_data html with
    | some sd =>
      obtain ⟨⟨hf1, hf2⟩, hg, hp⟩ := shared_some_spec html sd hs
      have heq : extract_instagram_metrics html =
          { followers := ⟨some (sd.followers : Int), pf 75 2, some sharedDataLabel⟩
            following :=
              match sd.following with
              | some v => ⟨some (v : Int), pf 75 2, none⟩
              | none => emptyExtraction
            posts :=
              match sd.posts with
              | some v => ⟨some (v : Int), pf 75 2, none⟩
              | none => emptyExtraction } := by
        unfold extract_instagram_metrics
        rw [hc, hs]
      rw [heq]
      refine ⟨?_, ?_, ?_, ?_, ?_, ?_, ?_, ?_, ?_⟩
      · intro v hv
        cases hv
        constructor
        · exact_mod_cast hf1
        · exact_mod_cast hf2
      · intro v hv
        cases hsf : sd.following with
        | none => rw [hsf] at hv; exact Option.noConfusion hv
        | some u =>
          rw [hsf] at hv
          cases hv
          refine ⟨Int.natCast_nonneg u, ?_⟩
          exact_mod_cast hg u hsf
      · intro v hv
        cases hsp : sd.posts with
        | none => rw [hsp] at hv; exact Option.noConfusion hv
        | some u =>
          rw [hsp] at hv
          cases hv
          refine ⟨Int.natCast_nonneg u, ?_⟩
          exact_mod_cast hp u hsp
      · intro v _
        exact pf_toQ_pos _ _ (by norm_num)
      · intro v hv
        cases hsf : sd.following with
        | none => rw [hsf] at hv; exact Option.noConfusion hv
        | some u => exact pf_toQ_pos _ _ (by norm_num)
      · intro v hv
        cases hsp : sd.posts with
        | none => rw [hsp] at hv; exact Option.noConfusion hv
        | some u => exact pf_toQ_pos _ _ (by norm_num)
      · intro e he
        cases he
        exact Or.inl rfl
      · intro e he
        cases hsf : sd.following with
        | none => rw [hsf] at he; exact Option.noConfusion he
        | some u => rw [hsf] at he; exact Option.noConfusion he
      · intro e he
        cases hsp : sd.posts with
        | none => rw [hsp] at he; exact Option.noConfusion he
        | some u => rw [hsp] at he; exact Option.noConfusion he
    | none =>
      cases he : extract_followers_from_edge_followed_by html with
      | some er =>
        obtain ⟨⟨v0, hv0, hb1, hb2⟩, hcf, i, j, hev⟩ := edge_some_spec html er he
        have heq : extract_instagram_metrics html =
            { emptyIGMetrics with followers := er } := by
          unfold extract_instagram_metrics
          rw [hc, hs, he]
        rw [heq]
        refine ⟨?_, ?_, ?_, ?_, ?_, ?_, ?_, ?_, ?_⟩
        · intro v hv
          simp only at hv
          rw [hv0] at hv
          cases hv
          exact ⟨hb1, hb2⟩
        · intro v hv
          simp [emptyIGMetrics, emptyExtraction] at hv
        · intro v hv
          simp [emptyIGMetrics, emptyExtraction] at hv
        · intro v _
          simp only
          rw [hcf]
          exact pf_toQ_pos _ _ (by norm_num)
        · intro v hv
          simp [emptyIGMetrics, emptyExtraction] at hv
        · intro v hv
          simp [emptyIGMetrics, emptyExtraction] at hv
        · intro e hee
          simp only at hee
          rw [hev] at hee
          cases hee
          exact Or.inr ⟨pySlice html i j, pySlice_infix html i j, Or.inr (Or.inr (Or.inl rfl))⟩
        · intro e hee
          simp [emptyIGMetrics, emptyExtraction] at hee
        · intro e hee
          simp [emptyIGMetrics, emptyExtraction] at hee
      | none =>
        have heq : extract_instagram_metrics html = directScan html := by
          unfold extract_instagram_metrics
          rw [hc, hs, he]
        rw [heq]
        rcases directScan_cases html with hD | ⟨conf, hcf, hF, hG, hP⟩
        · rw [hD]
          refine ⟨?_, ?_, ?_, ?_, ?_, ?_, ?_, ?_, ?_⟩ <;>
            · intro x hx
              simp [emptyIGMetrics, emptyExtraction] at hx
        · have hcpos : 0 < conf.toQ := by
            rcases hcf with h | h <;> rw [h] <;> exact pf_toQ_pos _ _ (by norm_num)
          refine ⟨?_, ?_, ?_, ?_, ?_, ?_, ?_, ?_, ?_⟩
          · intro v hv
            rcases hF with h | ⟨u, i, j, hrec, hu1, hu2⟩
            · rw [h] at hv; simp [emptyExtraction] at hv
            · rw [hrec] at hv; cases hv; exact ⟨hu1, hu2⟩
          · intro v hv
            rcases hG with h | ⟨u, i, j, hrec, hu1, hu2⟩
            · rw [h] at hv; simp [emptyExtraction] at hv
            · rw [hrec] at hv; cases hv; exact ⟨hu1, hu2⟩
          · intro v hv
            rcases hP with h | ⟨u, i, j, hrec, hu1, hu2⟩
            · rw [h] at hv; simp [emptyExtraction] at hv
            · rw [hrec] at hv; cases hv; exact ⟨hu1, hu2⟩
          · intro v hv
            rcases hF with h | ⟨u, i, j, hrec, hu1, hu2⟩
            · rw [h] at hv; simp [emptyExtraction] at hv
            · rw [hrec]; exact hcpos
          · intro v hv
            rcases hG with h | ⟨u, i, j, hrec, hu1, hu2⟩
            · rw [h] at hv; simp [emptyExtraction] at hv
            · rw [hrec]; exact hcpos
          · intro v hv
            rcases hP with h | ⟨u, i, j, hrec, hu1, hu2⟩
            · rw [h] at hv; simp [emptyExtraction] at hv
            · rw [hrec]; exact hcpos
          · intro e hee
            rcases hF with h | ⟨u, i, j, hrec, hu1, hu2⟩
            · rw [h] at hee; simp [emptyExtraction] at hee
            · rw [hrec] at hee
              cases hee
              exact Or.inr ⟨pySlice html i j, pySlice_infix html i j,
                Or.inr (Or.inr (Or.inr rfl))⟩
          · intro e hee
            rcases hG with h | ⟨u, i, j, hrec, hu1, hu2⟩
            · rw [h] at hee; simp [emptyExtraction] at hee
            · rw [hrec] at hee
              cases hee
              exact Or.inr ⟨pySlice html i j, pySlice_infix html i j,
                Or.inr (Or.inr (Or.inr rfl))⟩
          · intro e hee
            rcases hP with h | ⟨u, i, j, hrec, hu1, hu2⟩
            · rw [h] at hee; simp [emptyExtraction] at hee
            · rw [hrec] at hee
              cases hee
              exact Or.inr ⟨pySlice html i j, pySlice_infix html i j,
                Or.inr (Or.inr (Or.inr rfl))⟩

/-- Bounds through both meta patterns. -/
theorem metaStrategy_bounds (noun : Str) (optS : Bool) (html : Str) (r : Int × Str)
    (h : metaStrategy noun optS html = some r) : 0 < r.1 ∧ r.1 < 10000000000 := by
  unfold metaStrategy at h
  cases h1 : metaStratLoop false noun optS html (html.length + 1) 0 with
  | some r' =>
    rw [h1] at h
    cases h
    exact metaStratLoop_bounds false noun optS html _ 0 r h1
  | none =>
    rw [h1] at h
    exact metaStratLoop_bounds true noun optS html _ 0 r h

/-- **C1** (counterexample). On the 2016 `_sharedData` page the
`following` metric has a present value (14) at confidence 0.75 but no
evidence string, so `value is None ⟺ evidence is None` fails for
`extract_instagram_metrics`. -/
theorem claim_C1_counterexample :
    (extract_instagram_metrics igHtmlShared).following.value = some 14
    ∧ (extract_instagram_metrics igHtmlShared).following.evidence = none
    ∧ ¬ ((extract_instagram_metrics igHtmlShared).following.value = none
        ↔ (extract_instagram_metrics igHtmlShared).following.evidence = none) := by
  decide

/-- **C1** (amended). The three-way link `value is None ⟺
confidence == 0.0 ⟺ evidence is None` holds for the Twitter
`extract_followers` and the YouTube `extract_subscribers` on every
input. For `extract_instagram_metrics` only the weaker direction holds:
a present value always has confidence > 0 (the structured-data path
stores present `following`/`posts` values with no evidence, and the
candidate path can store evidence and positive confidence beside an
absent value — see the counterexample). -/
theorem claim_C1_amended :
    (∀ html : Str,
      ((extract_followers html).value = none ↔ (extract_followers html).confidence.toQ = 0)
      ∧ ((extract_followers html).confidence.toQ = 0 ↔ (extract_followers html).evidence = none))
    ∧ (∀ html : Str,
      ((extract_subscribers html).value = none ↔ (extract_subscribers html).confidence.toQ = 0)
      ∧ ((extract_subscribers html).confidence.toQ = 0 ↔ (extract_subscribers html).evidence = none))
    ∧ (∀ (html : Str) (v : Int),
      ((extract_instagram_metrics html).followers.value = some v →
        0 < (extract_instagram_metrics html).followers.confidence.toQ)
      ∧ ((extract_instagram_metrics html).following.value = some v →
        0 < (extract_instagram_metrics html).following.confidence.toQ)
      ∧ ((extract_instagram_metrics html).posts.value = some v →
        0 < (extract_instagram_metrics html).posts.confidence.toQ)) := by
  have h75 : (pf 75 2).toQ ≠ 0 := pf_toQ_ne_zero 75 2 (by norm_num)
  have h5 : (pf 5 1).toQ ≠ 0 := pf_toQ_ne_zero 5 1 (by norm_num)
  refine ⟨?_, ?_, ?_⟩
  · intro html
    unfold extract_followers
    split
    · simp [pf_zero_toQ]
    · split
      · simp [h75]
      · split
        · simp [h5]
        · simp [pf_zero_toQ]
  · intro html
    unfold extract_subscribers
    split
    · simp [pf_zero_toQ]
    · split
      · simp [h75]
      · split
        · simp [h5]
        · split
          · simp [h5]
          · simp [pf_zero_toQ]
  · intro html v
    obtain ⟨_, _, _, hcf, hcg, hcp, _, _, _⟩ := extract_instagram_metrics_spec html
    exact ⟨hcf v, hcg v, hcp v⟩

/-- Witness for C1 (amended): the Instagram followers value 3646 on the
2015-era list page carries positive confidence. -/
theorem claim_C1_witness :
    0 < (extract_instagram_metrics igHtml2015).followers.confidence.toQ :=
  (claim_C1_amended.2.2 igHtml2015 3646).1 (by decide)

/-- **C7** (confirmed). Every value the Instagram extractor returns lies
strictly inside its plausibility bounds on every path (candidate, shared
data, edge blob, direct scan): followers in `(0, 1e9)`,
following/posts in `[0, 1e8)`; and every Twitter followers value lies
in `(0, 1e10)`. -/
theorem claim_C7_plausibility_bounds :
    (∀ (html : Str) (v : Int),
      (extract_instagram_metrics html).followers.value = some v →
        0 < v ∧ v < 1000000000)
    ∧ (∀ (html : Str) (v : Int),
      (extract_instagram_metrics html).following.value = some v →
        0 ≤ v ∧ v < 100000000)
    ∧ (∀ (html : Str) (v : Int),
      (extract_instagram_metrics html).posts.value = some v →
        0 ≤ v ∧ v < 100000000)
    ∧ (∀ (html : Str) (v : Int),
      (extract_followers html).value = some v → 0 < v ∧ v < 10000000000) := by
  refine ⟨fun html v => (extract_instagram_metrics_spec html).1 v,
    fun html v => (extract_instagram_metrics_spec html).2.1 v,
    fun html v => (extract_instagram_metrics_spec html).2.2.1 v, ?_⟩
  intro html v hv
  unfold extract_followers at hv
  split at hv
  · exact Option.noConfusion hv
  · rename_i hg
    cases hm : metaStrategy ("follower".toList) true html with
    | some r =>
      rw [hm] at hv
      cases hv
      exact metaStrategy_bounds _ _ html r hm
    | none =>
      rw [hm] at hv
      cases ht : textStrategy ("follower".toList) true html with
      | some r =>
        rw [ht] at hv
        cases hv
        exact textStratLoop_bounds _ _ html _ 0 r ht
      | none =>
        rw [ht] at hv
        exact Option.noConfusion hv

/-- Witness for C7: the extracted 3646 (Instagram) and 1234 (Twitter)
are inside their bounds. -/
theorem claim_C7_witness :
    ((0 : Int) < 3646 ∧ (3646 : Int) < 1000000000)
    ∧ ((0 : Int) < 1234 ∧ (1234 : Int) < 10000000000) :=
  ⟨claim_C7_plausibility_bounds.1 igHtml2015 3646 (by decide),
    claim_C7_plausibility_bounds.2.2.2 twHtmlMeta 1234 (by decide)⟩

/-- **C4** (counterexample). On a page where a near-text context window
(confidence 0.55) and the `_sharedData` blob (confidence 0.75) both
match, the extractor returns the context result (followers 5 at 0.55),
not the usable structured-data result (999): the cascade is not ordered
highest-trust-first. -/
theorem claim_C4_counterexample :
    extract_from_shared_data igHtmlMixed = some ⟨999, some 8, none⟩
    ∧ (extract_instagram_metrics igHtmlMixed).followers.value = some 5
    ∧ (extract_instagram_metrics igHtmlMixed).followers.confidence = pf 55 2
    ∧ (extract_instagram_metrics igHtmlMixed).followers.value ≠ some 999 := by
  decide

/-- **C4** (amended). The `_sharedData` strategy wins only once the
candidate stage (meta descriptions at 0.75 and context windows at 0.55)
found nothing: under `candidateScan html = none`, a usable structured
result is returned as-is at confidence 0.75, short-circuiting the
lower-trust edge-blob and direct-scan strategies. -/
theorem claim_C4_amended (html : Str) (sd : SharedCounts)
    (hc : candidateScan html = none)
    (hs : extract_from_shared_data html = some sd) :
    (extract_instagram_metrics html).followers
      = ⟨some (sd.followers : Int), pf 75 2, some sharedDataLabel⟩
    ∧ (extract_instagram_metrics html).following
      = (match sd.following with
        | some v => ⟨some (v : Int), pf 75 2, none⟩
        | none => emptyExtraction)
    ∧ (extract_instagram_metrics html).posts
      = (match sd.posts with
        | some v => ⟨some (v : Int), pf 75 2, none⟩
        | none => emptyExtraction) := by
  unfold extract_instagram_metrics
  rw [hc, hs]
  exact ⟨rfl, rfl, rfl⟩

/-- Witness for C4 (amended): on the 2016 `_sharedData` page no
candidate matches, and the structured result 406462 is returned at
confidence 0.75. -/
theorem claim_C4_witness :
    (extract_instagram_metrics igHtmlShared).followers
      = ⟨some 406462, pf 75 2, some sharedDataLabel⟩ := by
  have h := claim_C4_amended igHtmlShared ⟨406462, some 14, some 164⟩ (by decide) (by decide)
  simpa using h.1

/-- **C5** (counterexample). The structured-data path stores the fixed
label `followed_by from _sharedData` as followers evidence, and that
string does not occur in the input HTML: evidence can be synthesized. -/
theorem claim_C5_counterexample :
    (extract_instagram_metrics igHtmlShared).followers.evidence = some sharedDataLabel
    ∧ ¬ (sharedDataLabel <:+: igHtmlShared) := by
  decide

/-- **C5** (amended). Every evidence string the Instagram extractor
returns either is the fixed `_sharedData` label, or derives from a
literal contiguous window of the input HTML by the evidence builders'
processing: entity-unescaping and truncation to 140 chars with an
ellipsis marker (meta candidates), newline replacement, stripping,
whitespace collapsing and the 140-char cut (context windows), truncation
with ellipsis (edge blob), or a plain `[:140]` cut (direct scan). -/
theorem claim_C5_amended (html : Str) :
    (∀ e, (extract_instagram_metrics html).followers.evidence = some e →
      evidenceShapeIG html e)
    ∧ (∀ e, (extract_instagram_metrics html).following.evidence = some e →
      evidenceShapeIG html e)
    ∧ (∀ e, (extract_instagram_metrics html).posts.evidence = some e →
      evidenceShapeIG html e) := by
  obtain ⟨_, _, _, _, _, _, hf, hg, hp⟩ := extract_instagram_metrics_spec html
  exact ⟨hf, hg, hp⟩

/-- Witness for C5 (amended): the context-window evidence on the
2015-era list page satisfies the shape property. -/
theorem claim_C5_witness :
    evidenceShapeIG igHtml2015
      ("<li>3 posts</li> <li>3,646 followers</li> <li>9 following</li>".toList) :=
  (claim_C5_amended igHtml2015).1 _ (by decide)

theorem strLE_total (a b : Str) : strLE a b = true ∨ strLE b a = true := by
  induction a generalizing b with
  | nil => left; rfl
  | cons x xs ih =>
    cases b with
    | nil => right; rfl
    | cons y ys =>
      simp only [strLE]
      rcases Nat.lt_trichotomy x.toNat y.toNat with h | h | h
      · left; simp [h]
      · have h1 : ¬ x.toNat < y.toNat := by omega
        have h2 : ¬ y.toNat < x.toNat := by omega
        rcases ih ys with h3 | h3
        · left; simp [h1, h2, h3]
        · right; simp [h1, h2, h3]
      · right; simp [h, Nat.lt_asymm h]

theorem strLE_trans (a : Str) :
    ∀ b c, strLE a b = true → strLE b c = true → strLE a c = true := by
  induction a with
  | nil => intro b c _ _; rfl
  | cons x xs ih =>
    intro b c h1 h2
    cases b with
    | nil => simp [strLE] at h1
    | cons y ys =>
      cases c with
      | nil => simp [strLE] at h2
      | cons z zs =>
        simp only [strLE] at h1 h2 ⊢
        by_cases hxy : x.toNat < y.toNat
        · by_cases hyz : y.toNat < z.toNat
          · have hxz : x.toNat < z.toNat := Nat.lt_trans hxy hyz
            simp [hxz]
          · rw [if_neg hyz] at h2
            by_cases hzy : z.toNat < y.toNat
            · rw [if_pos hzy] at h2; exact absurd h2 (by simp)
            · have hxz : x.toNat < z.toNat := by omega
              simp [hxz]
        · rw [if_neg hxy] at h1
          by_cases hyx : y.toNat < x.toNat
          · rw [if_pos hyx] at h1; exact absurd h1 (by simp)
          · rw [if_neg hyx] at h1
            by_cases hyz : y.toNat < z.toNat
            · have hxz : x.toNat < z.toNat := by omega
              simp [hxz]
            · rw [if_neg hyz] at h2
              by_cases hzy : z.toNat < y.toNat
              · rw [if_pos hzy] at h2; exact absurd h2 (by simp)
              · rw [if_neg hzy] at h2
                have hxz : ¬ x.toNat < z.toNat := by omega
                have hzx : ¬ z.toNat < x.toNat := by omega
                rw [if_neg hxz, if_neg hzx]
                exact ih ys zs h1 h2

theorem sortSnaps_perm (l : List Snap) : (sortSnaps l).Perm l :=
  List.perm_insertionSort snapRel l

theorem sortSnaps_length (l : List Snap) : (sortSnaps l).length = l.length :=
  (sortSnaps_perm l).length_eq

theorem sortSnaps_sorted (l : List Snap) : List.Pairwise snapRel (sortSnaps l) := by
  haveI : IsTotal Snap snapRel :=
    ⟨fun a b => strLE_total a.timestamp b.timestamp⟩
  haveI : IsTrans Snap snapRel :=
    ⟨fun a b c h1 h2 => strLE_trans a.timestamp b.timestamp c.timestamp h1 h2⟩
  exact List.sorted_insertionSort snapRel l

theorem pickYear_length (ys : List Snap) (nt : Nat) :
    (pickYear ys nt).length ≤ min nt ys.length := by
  simp only [pickYear]
  split
  · rename_i hle
    omega
  · calc (((((List.range (min nt ys.length)).map
          (· * max 1 (ys.length / min nt ys.length))).take (min nt ys.length)).filter
            (· < ys.length)).filterMap (fun i => ys[i]?)).length
        ≤ ((((List.range (min nt ys.length)).map
          (· * max 1 (ys.length / min nt ys.length))).take (min nt ys.length)).filter
            (· < ys.length)).length := List.length_filterMap_le _ _
      _ ≤ ((((List.range (min nt ys.length)).map
          (· * max 1 (ys.length / min nt ys.length))).take (min nt ys.length))).length :=
          List.length_filter_le _ _
      _ ≤ min nt ys.length := by
          simp [List.length_take]

theorem groupAdd_sum (acc : List (Str × List Snap)) (year : Str) (s : Snap) :
    ((groupAdd acc year s).map (fun kv => kv.2.length)).sum
      = ((acc.map (fun kv => kv.2.length)).sum) + 1 := by
  induction acc with
  | nil => simp [groupAdd]
  | cons kv rest ih =>
    by_cases hk : kv.1 = year
    · simp [groupAdd, hk]
      omega
    · simp [groupAdd, hk, ih]
      omega

theorem groupByYear_sum (l : List Snap) :
    (((groupByYear l).map (fun kv => kv.2.length)).sum) = l.length := by
  suffices H : ∀ acc : List (Str × List Snap),
      (((l.foldl (fun acc s => groupAdd acc (yearOf s) s) acc).map
        (fun kv => kv.2.length)).sum)
      = ((acc.map (fun kv => kv.2.length)).sum) + l.length by
    simpa using H []
  induction l with
  | nil => intro acc; simp
  | cons s rest ih =>
    intro acc
    rw [List.foldl_cons, ih (groupAdd acc (yearOf s) s), groupAdd_sum]
    simp [List.length_cons]
    omega

theorem groupAdd_keys_mem (acc : List (Str × List Snap)) (year : Str) (s : Snap)
    (h : year ∈ acc.map (·.1)) :
    (groupAdd acc year s).map (·.1) = acc.map (·.1) := by
  induction acc with
  | nil => simp at h
  | cons kv rest ih =>
    by_cases hk : kv.1 = year
    · simp [groupAdd, hk]
    · simp only [List.map_cons, List.mem_cons] at h
      rcases h with h | h
    
      · exact absurd h.symm hk
      · simp [groupAdd, hk, ih h]

theorem groupAdd_keys_new (acc : List (Str × List Snap)) (year : Str) (s : Snap)
    (h : year ∉ acc.map (·.1)) :
    (groupAdd acc year s).map (·.1) = acc.map (·.1) ++ [year] := by
  induction acc with
  | nil => simp [groupAdd]
  | cons kv rest ih =>
    simp only [List.map_cons, List.mem_cons, not_or] at h
    have hk : kv.1 ≠ year := fun hh => h.1 hh.symm
    simp [groupAdd, hk, ih h.2]

theorem groupAdd_keys_nodup (acc : List (Str × List Snap)) (year : Str) (s : Snap)
    (h : (acc.map (·.1)).Nodup) : ((groupAdd acc year s).map (·.1)).Nodup := by
  by_cases hmem : year ∈ acc.map (·.1)
  · rw [groupAdd_keys_mem acc year s hmem]
    exact h
  · rw [groupAdd_keys_new acc year s hmem]
    simp [List.nodup_append, h, hmem]

theorem groupByYear_keys_nodup (l : List Snap) :
    ((groupByYear l).map (·.1)).Nodup := by
  suffices H : ∀ acc : List (Str × List Snap), (acc.map (·.1)).Nodup →
      (((l.foldl (fun acc s => groupAdd acc (yearOf s) s) acc).map (·.1)).Nodup) by
    exact H [] (by simp)
  induction l with
  | nil => intro acc h; simpa using h
  | cons s rest ih =>
    intro acc h
    rw [List.foldl_cons]
    exact ih (groupAdd acc (yearOf s) s) (groupAdd_keys_nodup acc (yearOf s) s h)

theorem lookupBucket_mem (by_year : List (Str × List Snap))
    (h : (by_year.map (·.1)).Nodup) :
    ∀ kv ∈ by_year, lookupBucket by_year kv.1 = kv.2 := by
  induction by_year with
  | nil => intro kv hkv; simp at hkv
  | cons hd rest ih =>
    intro kv hkv
    simp only [List.map_cons, List.nodup_cons] at h
    rcases List.mem_cons.mp hkv with hh | ht
    · subst hh
      simp [lookupBucket]
    · have hne : hd.1 ≠ kv.1 := by
        intro he
        exact h.1 (he ▸ List.mem_map_of_mem (·.1) ht)
      have hbeq : (hd.1 == kv.1) = false := by
        simpa using hne
      simp only [lookupBucket, List.find?_cons, hbeq]
      exact ih h.2 kv ht

theorem sum_range_ite (per : Nat) (rem : Int) (n : Nat) :
    ((List.range n).map (fun (i : Nat) => per + (if (i : Int) < rem then 1 else 0))).sum
      = per * n + min rem.toNat n := by
  induction n with
  | zero => simp
  | succ m ih =>
    rw [List.range_succ, List.map_append, List.sum_append, ih]
    simp only [List.map_cons, List.map_nil, List.sum_cons, List.sum_nil]
    rw [Nat.mul_succ]
    by_cases h : (m : Int) < rem
    · rw [if_pos h]
      omega
    · rw [if_neg h]
      omega

theorem evenly_sample_all (snapshots : List Snap) (K : Nat)
    (h : snapshots.length ≤ K) : evenly_sample snapshots K = sortSnaps snapshots := by
  simp only [evenly_sample]
  by_cases he : snapshots.isEmpty
  · rw [if_pos he]
    rw [List.isEmpty_iff] at he
    subst he
    rfl
  · rw [if_neg he, if_pos (by rw [sortSnaps_length]; exact h)]

theorem evenly_sample_bound (snapshots : List Snap) (K : Nat) :
    (evenly_sample snapshots K).length ≤ min K snapshots.length := by
  simp only [evenly_sample]
  by_cases he : snapshots.isEmpty
  · rw [if_pos he]
    simp
  · rw [if_neg he]
    by_cases hle : (sortSnaps snapshots).length ≤ K
    · rw [if_pos hle]
      rw [sortSnaps_length] at hle ⊢
      omega
    · rw [if_neg hle]
      rw [sortSnaps_length] at hle
      rw [sortSnaps_length]
      have h1 : (((((List.range K).map
            (· * max 1 ((sortSnaps snapshots).length / K))).take K).filter
              (· < (sortSnaps snapshots).length)).filterMap
                (fun i => (sortSnaps snapshots)[i]?)).length ≤ K := by
        calc _ ≤ ((((List.range K).map
              (· * max 1 ((sortSnaps snapshots).length / K))).take K).filter
                (· < (sortSnaps snapshots).length)).length := List.length_filterMap_le _ _
          _ ≤ (((List.range K).map
              (· * max 1 ((sortSnaps snapshots).length / K))).take K).length :=
              List.length_filter_le _ _
          _ ≤ K := by simp [List.length_take]
      omega

theorem groupByYear_len_pos (l : List Snap) (h : 0 < l.length) :
    0 < (groupByYear l).length := by
  rcases hg : groupByYear l with _ | ⟨kv, rest⟩
  · have hs := groupByYear_sum l
    rw [hg] at hs
    simp at hs
    omega
  · simp

theorem sample_chunks_bound (by_year : List (Str × List Snap))
    (per : Nat) (rem : Int) (years : List Str)
    (hnd : (by_year.map (·.1)).Nodup)
    (hperm : years.Perm (by_year.map (·.1))) :
    ((years.enum.map fun iy =>
        pickYear (lookupBucket by_year iy.2)
          (per + (if (iy.1 : Int) < rem then 1 else 0))).flatten).length
      ≤ min (per * years.length + min rem.toNat years.length)
          ((by_year.map (fun kv => kv.2.length)).sum) := by
  rw [List.length_flatten, List.map_map]
  refine le_min ?_ ?_
  · have h1 : ((years.enum.map (List.length ∘ fun iy =>
        pickYear (lookupBucket by_year iy.2)
          (per + (if (iy.1 : Int) < rem then 1 else 0)))).sum)
        ≤ ((years.enum.map fun iy : Nat × Str =>
            per + (if (iy.1 : Int) < rem then 1 else 0)).sum) := by
      refine List.sum_le_sum ?_
      intro iy hiy
      exact le_trans (pickYear_length _ _) (min_le_left _ _)
    refine le_trans h1 (le_of_eq ?_)
    have h2 : (years.enum.map fun iy : Nat × Str =>
        per + (if (iy.1 : Int) < rem then 1 else 0))
        = (years.enum.map Prod.fst).map
            (fun (i : Nat) => per + (if (i : Int) < rem then 1 else 0)) := by
      rw [List.map_map]
      rfl
    rw [h2, List.enum_map_fst, sum_range_ite]
  · have h1 : ((years.enum.map (List.length ∘ fun iy =>
        pickYear (lookupBucket by_year iy.2)
          (per + (if (iy.1 : Int) < rem then 1 else 0)))).sum)
        ≤ ((years.enum.map fun iy : Nat × Str =>
            (lookupBucket by_year iy.2).length).sum) := by
      refine List.sum_le_sum ?_
      intro iy hiy
      exact le_trans (pickYear_length _ _) (min_le_right _ _)
    refine le_trans h1 (le_of_eq ?_)
    have h2 : (years.enum.map fun iy : Nat × Str =>
        (lookupBucket by_year iy.2).length)
        = (years.enum.map Prod.snd).map (fun y => (lookupBucket by_year y).length) := by
      rw [List.map_map]
      rfl
    rw [h2, List.enum_map_snd]
    have h3 : (years.map fun y => (lookupBucket by_year y).length).sum
        = ((by_year.map (·.1)).map fun y => (lookupBucket by_year y).length).sum :=
      (hperm.map _).sum_eq
    rw [h3, List.map_map]
    refine congrArg List.sum (List.map_congr_left ?_)
    intro kv hkv
    simp only [Function.comp]
    rw [lookupBucket_mem by_year hnd kv hkv]

theorem evenly_sample_snapshots_all (snapshots : List Snap) (K : Nat)
    (h : snapshots.length ≤ K) :
    evenly_sample_snapshots snapshots K = sortSnaps snapshots := by
  simp only [evenly_sample_snapshots]
  by_cases he : snapshots.isEmpty
  · rw [if_pos he]
    rw [List.isEmpty_iff] at he
    subst he
    rfl
  · rw [if_neg he, if_pos (by rw [sortSnaps_length]; exact h)]

theorem evenly_sample_snapshots_bound (snapshots : List Snap) (K : Nat) :
    (evenly_sample_snapshots snapshots K).length
      ≤ min (max K (sampleYears snapshots)) snapshots.length := by
  simp only [evenly_sample_snapshots]
  by_cases he : snapshots.isEmpty
  · rw [if_pos he]
    simp
  · rw [if_neg he]
    by_cases hle : (sortSnaps snapshots).length ≤ K
    · rw [if_pos hle]
      rw [sortSnaps_length] at hle ⊢
      omega
    · rw [if_neg hle]
      rw [sortSnaps_length] at hle
      rw [sortSnaps_length]
      refine le_trans (sample_chunks_bound (groupByYear (sortSnaps snapshots)) _ _ _
        (groupByYear_keys_nodup _) (List.perm_insertionSort strRel _)) ?_
      have hYlen : (List.insertionSort strRel
          ((groupByYear (sortSnaps snapshots)).map (·.1))).length
          = (groupByYear (sortSnaps snapshots)).length := by
        rw [(List.perm_insertionSort strRel _).length_eq, List.length_map]
      rw [hYlen, groupByYear_sum, sortSnaps_length]
      simp only [sampleYears]
      set Yb := (groupByYear (sortSnaps snapshots)).length with hYb
      have hY0 : 0 < Yb := by
        rw [hYb]
        exact groupByYear_len_pos _ (by rw [sortSnaps_length]; omega)
      have hA : max 1 (K / Yb) * Yb
          + min ((K : Int) - ↑(max 1 (K / Yb)) * ↑Yb).toNat Yb ≤ max K Yb := by
        rcases le_or_lt Yb K with hc | hc
        · obtain ⟨d, hd1, hdK, hdd⟩ : ∃ d, 1 ≤ d ∧ d * Yb + K % Yb = K ∧ K / Yb = d :=
            ⟨K / Yb, (Nat.one_le_div_iff hY0).mpr hc,
              by rw [Nat.mul_comm]; exact Nat.div_add_mod K Yb, rfl⟩
          rw [hdd, max_eq_right hd1]
          have hmlt : K % Yb < Yb := Nat.mod_lt _ hY0
          have hre : (K : Int) - ↑d * ↑Yb = ↑(K % Yb) := by
            have hc2 : (d : Int) * (Yb : Int) + ((K % Yb : Nat) : Int) = (K : Int) := by
              exact_mod_cast hdK
            linarith
          rw [hre, Int.toNat_natCast, min_eq_left (le_of_lt hmlt)]
          calc d * Yb + K % Yb = K := hdK
            _ ≤ max K Yb := le_max_left _ _
        · rw [Nat.div_eq_of_lt hc, Nat.max_zero]
          omega
      exact min_le_min hA (le_refl _)

/-- **C2** (counterexample). Three snapshots in three distinct years
with K = 2: the year-stratified Instagram sampler gives every year at
least one slot, so it returns all 3 snapshots, violating the claimed
`min K N` bound. -/
theorem claim_C2_counterexample :
    (evenly_sample_snapshots snapsThreeYears 2).length = 3
    ∧ ¬ ((evenly_sample_snapshots snapsThreeYears 2).length
        ≤ min 2 snapsThreeYears.length) := by
  decide

/-- **C2** (amended). The uniform-stride sampler `evenly_sample` obeys
the claimed bound `min K N` for every K; when `N ≤ K` both samplers
return exactly the input sorted ascending by timestamp (a permutation
of the input, pairwise ordered by `snapRel`). The year-stratified
`evenly_sample_snapshots` instead obeys the weaker bound
`min (max K num_years) N`: each capture year always gets at least one
slot (`per_year = max 1 (K / num_years)`), so with more distinct years
than K the output exceeds K — see the counterexample. -/
theorem claim_C2_amended (snapshots : List Snap) (K : Nat) :
    ((evenly_sample snapshots K).length ≤ min K snapshots.length)
    ∧ (snapshots.length ≤ K →
        evenly_sample snapshots K = sortSnaps snapshots
        ∧ (evenly_sample snapshots K).Perm snapshots
        ∧ List.Pairwise snapRel (evenly_sample snapshots K))
    ∧ (snapshots.length ≤ K →
        evenly_sample_snapshots snapshots K = sortSnaps snapshots)
    ∧ ((evenly_sample_snapshots snapshots K).length
        ≤ min (max K (sampleYears snapshots)) snapshots.length) := by
  refine ⟨evenly_sample_bound snapshots K, ?_,
    fun h => evenly_sample_snapshots_all snapshots K h,
    evenly_sample_snapshots_bound snapshots K⟩
  intro h
  have he := evenly_sample_all snapshots K h
  refine ⟨he, ?_, ?_⟩
  · rw [he]
    exact sortSnaps_perm snapshots
  · rw [he]
    exact sortSnaps_sorted snapshots

/-- Witness for C2 (amended): three snapshots with K = 5 satisfy the
bound, and both samplers return the sorted input. -/
theorem claim_C2_witness :
    (evenly_sample snapsThreeYears 5).length ≤ min 5 snapsThreeYears.length
    ∧ evenly_sample snapsThreeYears 5 = sortSnaps snapsThreeYears
    ∧ evenly_sample_snapshots snapsThreeYears 5 = sortSnaps snapsThreeYears := by
  obtain ⟨h1, h2, h3, _⟩ := claim_C2_amended snapsThreeYears 5
  exact ⟨h1, (h2 (by decide)).1, h3 (by decide)⟩

theorem addUnseen_cons (st : List Snap × List Str) (s : Snap) (rest : List Snap) :
    addUnseen st (s :: rest)
      = addUnseen (if st.2.contains s.timestamp then st
          else (st.1 ++ [s], st.2 ++ [s.timestamp])) rest := rfl

theorem addUnseen_inv (snaps : List Snap) :
    ∀ st : List Snap × List Str, SeenInv st → SeenInv (addUnseen st snaps) := by
  induction snaps with
  | nil =>
    intro st h
    exact h
  | cons s rest ih =>
    intro st h
    rw [addUnseen_cons]
    by_cases hc : st.2.contains s.timestamp = true
    · rw [if_pos hc]
      exact ih st h
    · rw [if_neg hc]
      simp at hc
      refine ih _ ⟨?_, ?_⟩
      · show (st.1 ++ [s]).map (·.timestamp) = st.2 ++ [s.timestamp]
        rw [List.map_append, h.1]
        rfl
      · show (st.2 ++ [s.timestamp]).Nodup
        rw [List.nodup_append]
        refine ⟨h.2, List.nodup_singleton _, ?_⟩
        intro a ha hmem
        simp at hmem
        exact hc (hmem ▸ ha)

theorem foldl_pres {α β : Type} (P : α → Prop) (f : α → β → α)
    (hstep : ∀ a b, P a → P (f a b)) :
    ∀ (l : List β) (a : α), P a → P (l.foldl f a) := by
  intro l
  induction l with
  | nil =>
    intro a h
    exact h
  | cons x xs ih =>
    intro a h
    exact ih (f a x) (hstep a x h)

theorem igPrimaryLoop_inv (base : Str) (responses : Nat → Option (List Snap))
    (variants : List (Nat × Bool)) (st : List Snap × List Str) (h : SeenInv st) :
    SeenInv (igPrimaryLoop base responses variants st) := by
  unfold igPrimaryLoop
  refine foldl_pres SeenInv _ ?_ variants st h
  intro a iv ha
  dsimp only
  cases hr : responses iv.1 with
  | none => exact ha
  | some snaps =>
    dsimp only
    by_cases he : snaps.isEmpty = true
    · rw [if_pos he]
      exact ha
    · rw [if_neg he]
      exact addUnseen_inv _ a ha

theorem igFallbackLoop_inv (url : Str) (responses : Nat → Option (List Snap))
    (l : List (Nat × Str)) :
    ∀ st, SeenInv st → SeenInv (igFallbackLoop url responses l st) := by
  induction l with
  | nil =>
    intro st h
    exact h
  | cons iu rest ih =>
    intro st h
    rw [igFallbackLoop]
    by_cases hc : (iu.2 == url || rstripChar iu.2 '/' == rstripChar url '/') = true
    · rw [if_pos hc]
      exact ih st h
    · rw [if_neg hc]
      cases hr : responses iu.1 with
      | none => exact ih st h
      | some snaps =>
        dsimp only
        by_cases he : snaps.isEmpty = true
        · rw [if_pos he]
          exact ih st h
        · rw [if_neg he]
          exact addUnseen_inv snaps st h

theorem seenInv_nodup_map (st : List Snap × List Str) (h : SeenInv st) :
    (st.1.map (·.timestamp)).Nodup := by
  rw [h.1]
  exact h.2

theorem sort_nodup_map (st : List Snap × List Str) (h : SeenInv st) :
    ((sortSnaps st.1).map (·.timestamp)).Nodup := by
  refine ((sortSnaps_perm st.1).map (·.timestamp)).symm.nodup ?_
  rw [h.1]
  exact h.2

/-- **C8** (counterexample). The Instagram `list_snapshots` keeps rows
in CDX-variant order and never re-sorts: with the prefix variant
returning a 2021 capture and the next variant a 2019 capture, the
result is [2021, 2019] — descending, not ascending. -/
theorem claim_C8_counterexample :
    (list_snapshots_instagram igProfileUrlEx cdxPrimaryEx cdxNoneEx).map (·.timestamp)
      = ["20210101000000".toList, "20190101000000".toList]
    ∧ ¬ List.Pairwise snapRel
        (list_snapshots_instagram igProfileUrlEx cdxPrimaryEx cdxNoneEx) := by
  decide

/-- **C8** (amended). Both CDX clients deduplicate by timestamp, so no
two returned rows share a timestamp, for every input URL and every CDX
oracle. The Twitter client's output is additionally sorted ascending by
timestamp (`sorted(..., key=lambda s: s.timestamp)`); the Instagram
client's output is NOT sorted in general — it concatenates per-variant
rows in variant order (see the counterexample). -/
theorem claim_C8_amended :
    (∀ (url : Str) (primary fallback : Nat → Option (List Snap)),
      ((list_snapshots_instagram url primary fallback).map (·.timestamp)).Nodup)
    ∧ (∀ (canonical_url : Str) (responses : Nat → List Snap),
      ((list_snapshots_twitter canonical_url responses).map (·.timestamp)).Nodup
      ∧ List.Pairwise snapRel (list_snapshots_twitter canonical_url responses)) := by
  constructor
  · intro url primary fallback
    simp only [list_snapshots_instagram]
    split
    · simp
    · split
      · simp
      · split
        · exact seenInv_nodup_map _ (igFallbackLoop_inv _ fallback _ _
            (igPrimaryLoop_inv _ primary _ ([], []) ⟨rfl, List.nodup_nil⟩))
        · exact seenInv_nodup_map _
            (igPrimaryLoop_inv _ primary _ ([], []) ⟨rfl, List.nodup_nil⟩)
  · intro canonical_url responses
    simp only [list_snapshots_twitter]
    split
    · simp
    · split
      · simp
      · refine ⟨?_, sortSnaps_sorted _⟩
        exact sort_nodup_map _ (foldl_pres SeenInv _
          (fun a iv ha => addUnseen_inv _ a ha) _ ([], []) ⟨rfl, List.nodup_nil⟩)
